import Mathlib

/-!
# Smart water meter: the consumption-accounting engine

A shallow embedding of `src/main.cpp` (flow sampler, EEPROM ledger with day and
month rollover, factory reset, button handling) together with the properties
the specification states about it.

Conventions of the embedding

* `unsigned long` and `uint32_t` are 32 bits wide on the target (the spec calls
  the ledger fields "4-byte unsigned"): natural numbers reduced modulo `2 ^ 32`.
* `uint8_t` values are natural numbers below 256 (`Fin 256` for clock fields).
* `float` is IEEE-754 binary32: a finite value is the rational number it
  denotes, and every arithmetic operation rounds its exact result to the
  nearest binary32 value, ties to even (`f32round`).
* The EEPROM is a byte-addressed store; I2C transfers are taken to succeed.
  The store carries the list of addresses written so far, so that statements
  about which bytes an operation touches can be made.
* LCD output and the blocking `wait` calls have no effect on the modelled
  state and are left out; the real-time clock and the timers are inputs.
-/

namespace SmartWaterMeter

/-! ## Machine integers -/

/-- Reduction of a value to `unsigned long` / `uint32_t`. -/
def wrapU32 (x : Nat) : Nat := x % 4294967296

/-- Unsigned 32-bit subtraction `a - b` (wraps around on underflow). -/
def subU32 (a b : Nat) : Nat :=
  (a % 4294967296 + (4294967296 - b % 4294967296)) % 4294967296

/-! ## IEEE-754 binary32 values and arithmetic -/

/-- Round a rational to the nearest integer, ties to the even neighbour. -/
def roundHalfEven (y : ℚ) : ℤ :=
  let f := ⌊y⌋
  let r := y - f
  if r < 1 / 2 then f
  else if 1 / 2 < r then f + 1
  else if f % 2 = 0 then f else f + 1

/-- Exponent of the unit in the last place of the binary32 binade that holds
`x`: 24 significant bits, smallest exponent `-149` (subnormal spacing). -/
def f32ulpExp (x : ℚ) : ℤ := max (Int.log 2 |x| - 23) (-149)

/-- Rounding to nearest-even binary32. Overflow to infinity (magnitudes of
`2 ^ 128` and above) is not represented: no operand of this program comes near it. -/
def f32round (x : ℚ) : ℚ := roundHalfEven (x / 2 ^ f32ulpExp x) * 2 ^ f32ulpExp x

/-- A rational is a finite binary32 value: at most 24 significant bits, exponent
of the last bit between `-149` and `104`. -/
def IsF32 (x : ℚ) : Prop :=
  ∃ m : ℤ, ∃ p : ℤ, |m| < 2 ^ 24 ∧ -149 ≤ p ∧ p ≤ 104 ∧ x = m * 2 ^ p

/-- Single-precision addition. -/
def f32add (a b : ℚ) : ℚ := f32round (a + b)

/-- Single-precision subtraction. -/
def f32sub (a b : ℚ) : ℚ := f32round (a - b)

/-- Single-precision multiplication. -/
def f32mul (a b : ℚ) : ℚ := f32round (a * b)

/-- Single-precision division. -/
def f32div (a b : ℚ) : ℚ := f32round (a / b)

/-- Conversion of an unsigned integer to `float`. -/
def f32ofNat (n : Nat) : ℚ := f32round n

/-- The conversion `(unsigned long)x` of a `float`: truncation toward zero. For a value outside
`[0, 2 ^ 32)` the conversion is undefined in C++; the model takes the saturating result
of the ARM conversion routine there. -/
def f32toUnsignedLong (x : ℚ) : Nat := min (⌊x⌋.toNat) 4294967295

/-- Object representation of a finite binary32 value as a 32-bit word:
sign bit, 8 exponent bits, 23 fraction bits. -/
def f32toBits (x : ℚ) : Nat :=
  let sign : Nat := if x < 0 then 2147483648 else 0
  let e := Int.log 2 |x|
  if x = 0 then 0
  else if e < -126 then sign + ⌊|x| * 2 ^ (149 : ℤ)⌋.toNat
  else sign + (e + 127).toNat * 8388608 + (⌊|x| * 2 ^ (23 - e)⌋.toNat - 8388608)

/-- The value denoted by a 32-bit word read as binary32; `none` for the
infinities and NaNs (exponent field 255). -/
def f32ofBits (w : Nat) : Option ℚ :=
  let sign : ℚ := if w / 2147483648 % 2 = 1 then -1 else 1
  let expField := w / 8388608 % 256
  let frac := w % 8388608
  if expField = 255 then none
  else if expField = 0 then some (sign * frac * 2 ^ (-149 : ℤ))
  else some (sign * (8388608 + frac) * 2 ^ ((expField : ℤ) - 150))

/-! ## EEPROM -/

/-- The external AT24C32: its bytes, and the addresses written so far in order. -/
structure EEPROM where
  cells : Nat → Nat
  written : List Nat

/-- EEPROM memory map: offset of `totalLiters`. -/
def ADDR_TOTAL_LITERS : Nat := 0
/-- EEPROM memory map: offset of `currentMonthLiters`. -/
def ADDR_CURRENT_MONTH : Nat := 4
/-- EEPROM memory map: offset of `previousMonthLiters`. -/
def ADDR_PREVIOUS_MONTH : Nat := 8
/-- EEPROM memory map: offset of `currentDayLiters`. -/
def ADDR_CURRENT_DAY : Nat := 12
/-- EEPROM memory map: offset of the calibration factor. -/
def ADDR_CALIBRATION : Nat := 16
/-- EEPROM memory map: offset of `lastMonth`. -/
def ADDR_LAST_MONTH : Nat := 20
/-- EEPROM memory map: offset of `lastDay`. -/
def ADDR_LAST_DAY : Nat := 21
/-- EEPROM memory map: offset of the cost per liter. -/
def ADDR_COST_PER_LITER : Nat := 22
/-- EEPROM memory map: offset of daily-log slot 0. -/
def ADDR_DAILY_LOG_START : Nat := 30

/-- The constant `PULSES_PER_LITER`, `450.0f`. -/
def PULSES_PER_LITER : ℚ := 450

/-- The literal `0.05f`: the binary32 value nearest to 0.05. -/
def DEFAULT_COST_PER_LITER : ℚ := f32round (1 / 20)

/-- Byte write `writeEEPROM(address, data)`: `address` is a `uint16_t`, `data` a `uint8_t`. -/
def writeEEPROM (e : EEPROM) (address data : Nat) : EEPROM :=
  { cells := fun a => if a = address % 65536 then data % 256 else e.cells a
    written := e.written ++ [address % 65536] }

/-- Byte read `readEEPROM(address)`. -/
def readEEPROM (e : EEPROM) (address : Nat) : Nat := e.cells (address % 65536) % 256

/-- Byte `i` of a 32-bit word in the target's little-endian order. -/
def byteOf (value i : Nat) : Nat := value / 256 ^ i % 256

/-- The loop of `writeUnsignedLong`: bytes 0 to 3 of `value` at `address + i`. -/
def writeUnsignedLong (e : EEPROM) (address value : Nat) : EEPROM :=
  let v := wrapU32 value
  let e0 := writeEEPROM e (address + 0) (byteOf v 0)
  let e1 := writeEEPROM e0 (address + 1) (byteOf v 1)
  let e2 := writeEEPROM e1 (address + 2) (byteOf v 2)
  writeEEPROM e2 (address + 3) (byteOf v 3)

/-- The loop of `readUnsignedLong`: reassembles the four bytes at `address + i`. -/
def readUnsignedLong (e : EEPROM) (address : Nat) : Nat :=
  readEEPROM e (address + 0) + 256 * readEEPROM e (address + 1)
    + 65536 * readEEPROM e (address + 2) + 16777216 * readEEPROM e (address + 3)

/-- The function `writeFloat`: the four bytes of the value's object representation. -/
def writeFloat (e : EEPROM) (address : Nat) (value : ℚ) : EEPROM :=
  writeUnsignedLong e address (f32toBits value)

/-- The function `readFloat`: the value whose object representation is stored. -/
def readFloat (e : EEPROM) (address : Nat) : Option ℚ :=
  f32ofBits (readUnsignedLong e address)

/-! ## Program state -/

/-- The enumeration `DisplayMode` (without its count sentinel `MODE_COUNT`). -/
inductive DisplayMode where
  | MODE_FLOW_RATE
  | MODE_SESSION
  | MODE_TODAY
  | MODE_THIS_MONTH
  | MODE_LAST_MONTH
  | MODE_TOTAL
  | MODE_COST_TODAY
  | MODE_COST_MONTH
  | MODE_WEEKLY
  deriving DecidableEq

/-- The enumerator `MODE_COUNT`. -/
def MODE_COUNT : Nat := 9

/-- Integer value of an enumerator. -/
def DisplayMode.toNat : DisplayMode → Nat
  | .MODE_FLOW_RATE => 0
  | .MODE_SESSION => 1
  | .MODE_TODAY => 2
  | .MODE_THIS_MONTH => 3
  | .MODE_LAST_MONTH => 4
  | .MODE_TOTAL => 5
  | .MODE_COST_TODAY => 6
  | .MODE_COST_MONTH => 7
  | .MODE_WEEKLY => 8

/-- The cast `(DisplayMode)n`; the program only casts values below `MODE_COUNT`. -/
def DisplayMode.ofValue : Nat → DisplayMode
  | 0 => .MODE_FLOW_RATE
  | 1 => .MODE_SESSION
  | 2 => .MODE_TODAY
  | 3 => .MODE_THIS_MONTH
  | 4 => .MODE_LAST_MONTH
  | 5 => .MODE_TOTAL
  | 6 => .MODE_COST_TODAY
  | 7 => .MODE_COST_MONTH
  | _ => .MODE_WEEKLY

/-- The structure `DateTime` as returned by `rtcGetTime`. -/
structure DateTime where
  second : Fin 256
  minute : Fin 256
  hour : Fin 256
  dayOfWeek : Fin 256
  day : Fin 256
  month : Fin 256
  year : Fin 65536

/-- Globals and function-local statics of the program, and the EEPROM. -/
structure State where
  eeprom : EEPROM
  pulseCount : Nat
  flowRate : ℚ
  sessionVolume : ℚ
  currentMode : DisplayMode
  displayNeedsUpdate : Bool
  /-- static of `updateFlowMeasurements` -/
  lastCheck : Nat
  /-- static of `saveToEEPROM` -/
  lastSave : Nat
  /-- statics of `handleButtons` -/
  lastBtn1 : Nat
  lastBtn2 : Nat
  lastBtn3 : Nat
  btn1WasPressed : Bool
  btn2WasPressed : Bool
  btn3WasPressed : Bool
  /-- statics of `checkLongPress` -/
  btn2PressStart : Nat
  btn3PressStart : Nat
  btn2LongHandled : Bool
  btn3LongHandled : Bool
  /-- bookkeeping, not program state: number of calls of `resetToday` so far -/
  resetTodayCalls : Nat

/-! ## Flow sampler -/

/-- The interrupt handler `flowPulseISR`. -/
def flowPulseISR (st : State) : State :=
  { st with pulseCount := wrapU32 (st.pulseCount + 1) }

/-- The function `updateFlowMeasurements`; `currentTime` is `flowTimer.read_ms()`. -/
def updateFlowMeasurements (st : State) (currentTime : Nat) : State :=
  let currentTime := wrapU32 currentTime
  if 1000 ≤ subU32 currentTime st.lastCheck then
    let pulses := wrapU32 st.pulseCount
    let timeDiff := subU32 currentTime st.lastCheck
    { st with
      pulseCount := 0
      flowRate := f32div (f32mul (f32mul (f32ofNat pulses) 60) 1000)
        (f32mul PULSES_PER_LITER (f32ofNat timeDiff))
      sessionVolume := f32add st.sessionVolume (f32div (f32ofNat pulses) PULSES_PER_LITER)
      lastCheck := currentTime
      displayNeedsUpdate := true }
  else st

/-! ## Ledger commit -/

/-- The expression `(lastDay - 1) % 30` stored into a `uint8_t`: the subtraction and the
remainder are computed in `int` (the remainder truncates toward zero). -/
def logIndex (lastDay : Nat) : Nat := ((((lastDay : ℤ) - 1).tmod 30) % 256).toNat

/-- The function `saveToEEPROM`; `currentTime` is `saveTimer.read()` converted to
`uint32_t`, `now` is the result of `rtcGetTime()`. -/
def saveToEEPROM (st : State) (currentTime : Nat) (now : DateTime) : State :=
  let currentTime := wrapU32 currentTime
  if 60 ≤ subU32 currentTime st.lastSave then
    let e := st.eeprom
    let totalLiters := readUnsignedLong e ADDR_TOTAL_LITERS
    let currentMonth := readUnsignedLong e ADDR_CURRENT_MONTH
    let currentDay := readUnsignedLong e ADDR_CURRENT_DAY
    let lastMonth := readEEPROM e ADDR_LAST_MONTH
    let lastDay := readEEPROM e ADDR_LAST_DAY
    let sessionLitersInt := f32toUnsignedLong st.sessionVolume
    let totalLiters := wrapU32 (totalLiters + sessionLitersInt)
    let currentMonth := wrapU32 (currentMonth + sessionLitersInt)
    let currentDay := wrapU32 (currentDay + sessionLitersInt)
    let sessionVolume := f32sub st.sessionVolume (f32ofNat sessionLitersInt)
    let dayChanged := now.day.val ≠ lastDay
    let e := if dayChanged then
        writeEEPROM
          (writeUnsignedLong e (ADDR_DAILY_LOG_START + logIndex lastDay * 4) currentDay)
          ADDR_LAST_DAY now.day.val
      else e
    let currentDay := if dayChanged then 0 else currentDay
    let monthChanged := now.month.val ≠ lastMonth
    let e := if monthChanged then
        writeEEPROM (writeUnsignedLong e ADDR_PREVIOUS_MONTH currentMonth)
          ADDR_LAST_MONTH now.month.val
      else e
    let currentMonth := if monthChanged then 0 else currentMonth
    let e := writeUnsignedLong e ADDR_TOTAL_LITERS totalLiters
    let e := writeUnsignedLong e ADDR_CURRENT_MONTH currentMonth
    let e := writeUnsignedLong e ADDR_CURRENT_DAY currentDay
    { st with
      eeprom := e
      sessionVolume := sessionVolume
      lastSave := currentTime
      displayNeedsUpdate := true }
  else st

/-! ## Factory reset and the reset commands -/

/-- The loop `for (i = 0; i < 30; i++) writeUnsignedLong(ADDR_DAILY_LOG_START + i * 4, 0)`
from index `i` on, `n` iterations. -/
def clearDailyLog (e : EEPROM) (i : Nat) : Nat → EEPROM
  | 0 => e
  | n + 1 => clearDailyLog (writeUnsignedLong e (ADDR_DAILY_LOG_START + i * 4) 0) (i + 1) n

/-- The write sequence of `initializeEEPROM` on the store. -/
def initializeStore (e : EEPROM) (now : DateTime) : EEPROM :=
  let e := writeUnsignedLong e ADDR_TOTAL_LITERS 0
  let e := writeUnsignedLong e ADDR_CURRENT_MONTH 0
  let e := writeUnsignedLong e ADDR_PREVIOUS_MONTH 0
  let e := writeUnsignedLong e ADDR_CURRENT_DAY 0
  let e := writeFloat e ADDR_CALIBRATION PULSES_PER_LITER
  let e := writeFloat e ADDR_COST_PER_LITER DEFAULT_COST_PER_LITER
  let e := writeEEPROM e ADDR_LAST_MONTH now.month.val
  let e := writeEEPROM e ADDR_LAST_DAY now.day.val
  clearDailyLog e 0 30

/-- The function `initializeEEPROM`; `now` is the result of its `rtcGetTime()` call. -/
def initializeEEPROM (st : State) (now : DateTime) : State :=
  { st with eeprom := initializeStore st.eeprom now, displayNeedsUpdate := true }

/-- The function `showSystemInfo`: it only displays. -/
def showSystemInfo (st : State) : State :=
  { st with displayNeedsUpdate := true }

/-- The function `resetSession`. -/
def resetSession (st : State) : State :=
  { st with sessionVolume := 0, displayNeedsUpdate := true }

/-- The function `resetMonth`. -/
def resetMonth (st : State) : State :=
  { st with
    eeprom := writeUnsignedLong st.eeprom ADDR_CURRENT_MONTH 0
    displayNeedsUpdate := true }

/-! ## Buttons

A button input is the level read from its pin: `false` is 0 (pressed, the
inputs are active-low), `true` is 1 (released). -/

/-- The condition under which `handleButtons` accepts a press of button 1. -/
def acceptsBtn1 (st : State) (button1 : Bool) (currentTime : Nat) : Bool :=
  button1 == false && !st.btn1WasPressed && decide (200 < subU32 (wrapU32 currentTime) st.lastBtn1)

/-- First block of `handleButtons`: button 1 cycles the display mode. -/
def handleButton1 (st : State) (button1 : Bool) (currentTime : Nat) : State :=
  if button1 == false && !st.btn1WasPressed && decide (200 < subU32 currentTime st.lastBtn1) then
    { st with
      currentMode := DisplayMode.ofValue ((st.currentMode.toNat + 1) % MODE_COUNT)
      displayNeedsUpdate := true
      lastBtn1 := currentTime
      btn1WasPressed := true }
  else if button1 == true then { st with btn1WasPressed := false }
  else st

/-- Second block of `handleButtons`: a short press of button 2 resets the session. -/
def handleButton2 (st : State) (button2 : Bool) (currentTime : Nat) : State :=
  if button2 == false && !st.btn2WasPressed && decide (200 < subU32 currentTime st.lastBtn2) then
    { resetSession st with lastBtn2 := currentTime, btn2WasPressed := true }
  else if button2 == true then { st with btn2WasPressed := false }
  else st

/-- Third block of `handleButtons`: a short press of button 3 shows the system information. -/
def handleButton3 (st : State) (button3 : Bool) (currentTime : Nat) : State :=
  if button3 == false && !st.btn3WasPressed && decide (200 < subU32 currentTime st.lastBtn3) then
    { showSystemInfo st with lastBtn3 := currentTime, btn3WasPressed := true }
  else if button3 == true then { st with btn3WasPressed := false }
  else st

/-- The function `handleButtons`; `currentTime` is `debounceTimer.read_ms()`. -/
def handleButtons (st : State) (button1 button2 button3 : Bool) (currentTime : Nat) : State :=
  let currentTime := wrapU32 currentTime
  handleButton3 (handleButton2 (handleButton1 st button1 currentTime) button2 currentTime)
    button3 currentTime

/-- Daily-log slot `i` as the program reads it:
`readUnsignedLong(ADDR_DAILY_LOG_START + (i * 4))`. -/
def dailyLogSlot (e : EEPROM) (i : Nat) : Nat :=
  readUnsignedLong e (ADDR_DAILY_LOG_START + i * 4)

/-- The stored `totalLiters`. -/
def storedTotal (st : State) : Nat := readUnsignedLong st.eeprom ADDR_TOTAL_LITERS

/-- A store whose bytes are all `fill`, nothing written yet. An erased AT24C32 is
`filledStore 255`. -/
def filledStore (fill : Nat) : EEPROM := { cells := fun _ => fill, written := [] }

/-- A zero-filled store on which the ledger fields have been written. -/
def ledgerStore (total month previous day lastMonth lastDay : Nat) : EEPROM :=
  let e := writeUnsignedLong (filledStore 0) ADDR_TOTAL_LITERS total
  let e := writeUnsignedLong e ADDR_CURRENT_MONTH month
  let e := writeUnsignedLong e ADDR_PREVIOUS_MONTH previous
  let e := writeUnsignedLong e ADDR_CURRENT_DAY day
  let e := writeEEPROM e ADDR_LAST_MONTH lastMonth
  writeEEPROM e ADDR_LAST_DAY lastDay

/-- The values of the globals and statics at program start, over a given store. -/
def initialState (e : EEPROM) : State :=
  { eeprom := e
    pulseCount := 0
    flowRate := 0
    sessionVolume := 0
    currentMode := .MODE_FLOW_RATE
    displayNeedsUpdate := true
    lastCheck := 0
    lastSave := 0
    lastBtn1 := 0
    lastBtn2 := 0
    lastBtn3 := 0
    btn1WasPressed := false
    btn2WasPressed := false
    btn3WasPressed := false
    btn2PressStart := 0
    btn3PressStart := 0
    btn2LongHandled := false
    btn3LongHandled := false
    resetTodayCalls := 0 }

/-- A clock reading with the given day and month (midnight, year 2000). -/
def clockAt (day month : Fin 256) : DateTime :=
  { second := 0, minute := 0, hour := 0, dayOfWeek := 1, day := day, month := month, year := 2000 }

/-- One call of `saveToEEPROM` in the main loop, with the session volume the sampler has
accumulated by then. -/
structure CommitCycle where
  sessionVolume : ℚ
  currentTime : Nat
  now : DateTime

/-- A sequence of `saveToEEPROM` calls with no reset command in between. -/
def runCommits (st : State) : List CommitCycle → State
  | [] => st
  | c :: cs =>
    runCommits (saveToEEPROM { st with sessionVolume := c.sessionVolume } c.currentTime c.now) cs

/-- Liters a cycle commits when it is due: the integer part of its session volume. -/
def cycleLiters (c : CommitCycle) : Nat := f32toUnsignedLong c.sessionVolume

/-- One call of `updateFlowMeasurements`, after `pulses` sensor edges have arrived. -/
structure SamplerCall where
  pulses : Nat
  currentTime : Nat

/-- A sequence of sampler calls with no commit in between. -/
def runSampler (st : State) : List SamplerCall → State
  | [] => st
  | c :: cs => runSampler (updateFlowMeasurements (flowPulseISR^[c.pulses] st) c.currentTime) cs

/-- The volume increments of the calls of a sampler run that pass the one-second gate. -/
def samplerIncrements (st : State) : List SamplerCall → List ℚ
  | [] => []
  | c :: cs =>
    let st1 := flowPulseISR^[c.pulses] st
    let rest := samplerIncrements (updateFlowMeasurements st1 c.currentTime) cs
    if 1000 ≤ subU32 (wrapU32 c.currentTime) st1.lastCheck then
      f32div (f32ofNat (wrapU32 st1.pulseCount)) PULSES_PER_LITER :: rest
    else rest

/-- One poll of `handleButtons`. -/
structure ButtonPoll where
  button1 : Bool
  button2 : Bool
  button3 : Bool
  currentTime : Nat

/-- A sequence of `handleButtons` polls. -/
def runButtons (st : State) : List ButtonPoll → State
  | [] => st
  | p :: ps => runButtons (handleButtons st p.button1 p.button2 p.button3 p.currentTime) ps

/-- Number of polls of a run at which a press of button 1 is accepted. -/
def acceptedPresses (st : State) : List ButtonPoll → Nat
  | [] => 0
  | p :: ps =>
    (if acceptsBtn1 st p.button1 p.currentTime then 1 else 0)
      + acceptedPresses (handleButtons st p.button1 p.button2 p.button3 p.currentTime) ps

/-- Ledger with total 1000, month 500, today 120, last seen date 5/3; 2.5 liters in the session. -/
def rolloverExample : State :=
  { initialState (ledgerStore 1000 500 0 120 3 5) with sessionVolume := 5 / 2 }

/-- Scenario B of the spec: today 120, last day 5, less than one liter in the session. -/
def scenarioB : State :=
  { initialState (ledgerStore 1000 500 0 120 3 5) with sessionVolume := 1 / 2 }

/-- An erased EEPROM (every byte 0xFF) on which no factory reset was run; one liter in the session. -/
def erasedExample : State :=
  { initialState (filledStore 255) with sessionVolume := 1 }

/-- Ledger whose month counter is at the top of its range; one liter in the session. -/
def monthWrapExample : State :=
  { initialState (ledgerStore 0 4294967295 7 0 3 5) with sessionVolume := 1 }

/-- Ledger whose stored last day is 0; 2.5 liters in the session. -/
def dayZeroExample : State :=
  { initialState (ledgerStore 1000 500 0 120 3 0) with sessionVolume := 5 / 2 }

/-- Byte addresses in the order `initializeEEPROM` writes them. -/
def initializeWriteOrder : List Nat :=
  List.range 20 ++ [22, 23, 24, 25, 20, 21] ++ (List.range 120).map (· + 30)

/-- Two commit cycles, one minute apart. -/
def twoCycles : List CommitCycle :=
  [{ sessionVolume := 5 / 2, currentTime := 60, now := clockAt 5 3 },
   { sessionVolume := 7 / 4, currentTime := 120, now := clockAt 6 3 }]

/-- Button 1 held down over four polls. -/
def longHoldPolls : List ButtonPoll :=
  [{ button1 := false, button2 := true, button3 := true, currentTime := 1000 },
   { button1 := false, button2 := true, button3 := true, currentTime := 1050 },
   { button1 := false, button2 := true, button3 := true, currentTime := 1300 },
   { button1 := false, button2 := true, button3 := true, currentTime := 5000 }]

/-- Three accepted presses of button 1, with a bounce inside the debounce window. -/
def threePresses : List ButtonPoll :=
  [{ button1 := false, button2 := true, button3 := true, currentTime := 1000 },
   { button1 := true, button2 := true, button3 := true, currentTime := 1100 },
   { button1 := false, button2 := true, button3 := true, currentTime := 1150 },
   { button1 := false, button2 := true, button3 := true, currentTime := 1250 },
   { button1 := true, button2 := true, button3 := true, currentTime := 1300 },
   { button1 := false, button2 := false, button3 := true, currentTime := 1500 }]

/-- Scenario A of the spec: 450 pulses counted, last sample at time 0. -/
def scenarioA : State := { initialState (filledStore 0) with pulseCount := 450 }

/-- One pulse counted, last sample at time 0. -/
def onePulseExample : State := { initialState (filledStore 0) with pulseCount := 1 }

/-- Half a liter in the session, no pulse counted yet. -/
def halfLiterExample : State := { initialState (filledStore 0) with sessionVolume := 1 / 2 }

/-! ## Binary32 rounding: auxiliary facts -/

theorem roundHalfEven_intCast (n : ℤ) : roundHalfEven (n : ℚ) = n := by
  unfold roundHalfEven
  simp

theorem roundHalfEven_eq_of_abs_lt (y : ℚ) (k : ℤ) (h : |y - k| < 1 / 2) :
    roundHalfEven y = k := by
  rw [abs_lt] at h
  obtain ⟨h1, h2⟩ := h
  unfold roundHalfEven
  by_cases hk : (k : ℚ) ≤ y
  · have hf : ⌊y⌋ = k := by
      rw [Int.floor_eq_iff]
      constructor
      · exact hk
      · linarith
    simp only [hf]
    rw [if_pos (by linarith)]
  · push_neg at hk
    have hf : ⌊y⌋ = k - 1 := by
      rw [Int.floor_eq_iff]
      push_cast
      constructor <;> linarith
    simp only [hf]
    push_cast
    rw [if_neg (by linarith), if_pos (by linarith)]
    ring

theorem intLog_eq (x : ℚ) (e : ℤ) (h1 : (2 : ℚ) ^ e ≤ |x|) (h2 : |x| < 2 ^ (e + 1)) :
    Int.log 2 |x| = e := by
  have hpos : (0 : ℚ) < |x| := lt_of_lt_of_le (by positivity) h1
  have a : e ≤ Int.log 2 |x| := (Int.zpow_le_iff_le_log (by norm_num) hpos).mp (by exact_mod_cast h1)
  have b : Int.log 2 |x| < e + 1 := (Int.lt_zpow_iff_log_lt (by norm_num) hpos).mp (by exact_mod_cast h2)
  omega

theorem f32round_of_dyadic (m p : ℤ) (hm : |m| < 2 ^ 24) (hp : -149 ≤ p) :
    f32round (m * 2 ^ p) = m * 2 ^ p := by
  by_cases hm0 : m = 0
  · subst hm0
    simp [f32round, roundHalfEven]
  have hx : (0 : ℚ) < |(m : ℚ) * 2 ^ p| := by
    rw [abs_pos]
    have : (2 : ℚ) ^ p ≠ 0 := by positivity
    have : (m : ℚ) ≠ 0 := by exact_mod_cast hm0
    positivity
  have hlog : Int.log 2 |(m : ℚ) * 2 ^ p| < p + 24 := by
    rw [← Int.lt_zpow_iff_log_lt (by norm_num) hx]
    rw [abs_mul, abs_of_pos (by positivity : (0 : ℚ) < 2 ^ p), zpow_add₀ (by norm_num), mul_comm]
    have : |(m : ℚ)| < 2 ^ (24 : ℤ) := by
      have : ((|m| : ℤ) : ℚ) < ((2 ^ 24 : ℤ) : ℚ) := by exact_mod_cast hm
      rw [Int.cast_abs] at this
      norm_num at this ⊢
      exact this
    push_cast
    exact mul_lt_mul_of_pos_left this (by positivity)
  have hq : f32ulpExp (m * 2 ^ p) ≤ p := by
    unfold f32ulpExp
    omega
  unfold f32round
  generalize f32ulpExp (m * 2 ^ p) = q at hq
  obtain ⟨d, hd⟩ : ∃ d : ℕ, p = q + d := ⟨(p - q).toNat, by omega⟩
  have hpow : (2 : ℚ) ^ p = 2 ^ q * 2 ^ d := by
    rw [hd, zpow_add₀ (by norm_num), zpow_natCast]
  have hq0 : (2 : ℚ) ^ q ≠ 0 := by positivity
  have h2 : (m : ℚ) * 2 ^ p / 2 ^ q = ((m * 2 ^ d : ℤ) : ℚ) := by
    rw [hpow]
    push_cast
    field_simp
    ring
  rw [h2, roundHalfEven_intCast, hpow]
  push_cast
  ring

theorem f32round_of_isF32 (x : ℚ) (h : IsF32 x) : f32round x = x := by
  obtain ⟨m, p, hm, hp, -, rfl⟩ := h
  exact f32round_of_dyadic m p hm hp

theorem f32round_eval (x : ℚ) (e k : ℤ) (h1 : (2 : ℚ) ^ e ≤ |x|) (h2 : |x| < 2 ^ (e + 1))
    (hk : roundHalfEven (x / 2 ^ (max (e - 23) (-149))) = k) :
    f32round x = k * 2 ^ (max (e - 23) (-149)) := by
  unfold f32round f32ulpExp
  rw [intLog_eq x e h1 h2, hk]


theorem f32toUnsignedLong_of_range (s : ℚ) (h0 : 0 ≤ s) (h1 : s < 4294967296) :
    f32toUnsignedLong s = ⌊s⌋.toNat ∧ ((⌊s⌋.toNat : ℕ) : ℚ) = (⌊s⌋ : ℚ) := by
  have hf0 : 0 ≤ ⌊s⌋ := Int.floor_nonneg.mpr h0
  have hf1 : ⌊s⌋ < 4294967296 := by
    rw [Int.floor_lt]
    exact_mod_cast h1
  constructor
  · unfold f32toUnsignedLong
    omega
  · have : ((⌊s⌋.toNat : ℕ) : ℤ) = ⌊s⌋ := Int.toNat_of_nonneg hf0
    exact_mod_cast this

/-- Splitting a non-negative binary32 value: both the integer part and the fractional part are
binary32 values. -/
theorem isF32_floor_fract (s : ℚ) (hs : IsF32 s) (h0 : 0 ≤ s) :
    IsF32 (⌊s⌋ : ℚ) ∧ IsF32 (s - ⌊s⌋) := by
  obtain ⟨m, p, hm, hp, hp2, rfl⟩ := hs
  have h2p : (0 : ℚ) < 2 ^ p := by positivity
  have hm0 : 0 ≤ m := by
    by_contra hneg
    push_neg at hneg
    have : (m : ℚ) < 0 := by exact_mod_cast hneg
    have : (m : ℚ) * 2 ^ p < 0 := mul_neg_of_neg_of_pos this h2p
    linarith
  have hmlt : m < 2 ^ 24 := by
    rw [abs_of_nonneg hm0] at hm
    exact hm
  by_cases hp0 : 0 ≤ p
  · -- an integer
    obtain ⟨d, rfl⟩ : ∃ d : ℕ, p = d := ⟨p.toNat, by omega⟩
    have hint : (m : ℚ) * 2 ^ (d : ℤ) = ((m * 2 ^ d : ℤ) : ℚ) := by
      rw [zpow_natCast]
      push_cast
      ring
    rw [hint, Int.floor_intCast]
    constructor
    · exact ⟨m, d, hm, hp, hp2, by rw [zpow_natCast]; push_cast; ring⟩
    · exact ⟨0, 0, by norm_num, by norm_num, by norm_num, by norm_num⟩
  · push_neg at hp0
    obtain ⟨d, hd⟩ : ∃ d : ℕ, p = -(d : ℤ) := ⟨(-p).toNat, by omega⟩
    subst hd
    have hpow : (2 : ℚ) ^ (-(d : ℤ)) = 1 / 2 ^ d := by
      rw [zpow_neg, zpow_natCast, one_div]
    have hdpos : (0 : ℤ) < 2 ^ d := by positivity
    have hfl : ⌊(m : ℚ) * 2 ^ (-(d : ℤ))⌋ = m / 2 ^ d := by
      rw [hpow, mul_one_div]
      have hc : ((2 : ℚ) ^ d) = (((2 ^ d : ℕ)) : ℚ) := by push_cast; ring
      rw [hc, Rat.floor_intCast_div_natCast]
      push_cast
      rfl
    rw [hfl]
    have hdiv0 : 0 ≤ m / 2 ^ d := Int.ediv_nonneg hm0 (le_of_lt hdpos)
    have hdivle : m / 2 ^ d ≤ m := Int.ediv_le_self _ hm0
    have hmod0 : 0 ≤ m % 2 ^ d := Int.emod_nonneg _ (ne_of_gt hdpos)
    have hmodle : m % 2 ^ d ≤ m := by
      have := Int.emod_add_ediv m (2 ^ d)
      nlinarith
    constructor
    · refine ⟨m / 2 ^ d, 0, ?_, by norm_num, by norm_num, by norm_num⟩
      rw [abs_of_nonneg hdiv0]
      omega
    · refine ⟨m % 2 ^ d, -(d : ℤ), ?_, hp, hp2, ?_⟩
      · rw [abs_of_nonneg hmod0]
        omega
      · have hsplit := Int.emod_add_ediv m (2 ^ d)
        have : (m : ℚ) = ((m % 2 ^ d : ℤ) : ℚ) + (2 : ℚ) ^ d * ((m / 2 ^ d : ℤ) : ℚ) := by
          have := congrArg (fun z : ℤ => (z : ℚ)) hsplit
          simp only [Int.cast_add, Int.cast_mul, Int.cast_pow, Int.cast_ofNat] at this
          linarith
        rw [hpow]
        have h2d : (2 : ℚ) ^ d ≠ 0 := by positivity
        field_simp
        linarith

theorem f32_commit_remainder (s : ℚ) (hs : IsF32 s) (h0 : 0 ≤ s) (h1 : s < 4294967296) :
    f32sub s (f32ofNat (f32toUnsignedLong s)) = s - ⌊s⌋ := by
  obtain ⟨hc, hcast⟩ := f32toUnsignedLong_of_range s h0 h1
  obtain ⟨hfl, hfr⟩ := isF32_floor_fract s hs h0
  unfold f32sub f32ofNat
  rw [hc, hcast, f32round_of_isF32 _ hfl, f32round_of_isF32 _ hfr]

/-! ## EEPROM reads after writes -/

theorem readEEPROM_lt (e : EEPROM) (a : Nat) : readEEPROM e a < 256 :=
  Nat.mod_lt _ (by norm_num)

theorem readUnsignedLong_lt (e : EEPROM) (a : Nat) : readUnsignedLong e a < 4294967296 := by
  unfold readUnsignedLong
  have h0 := readEEPROM_lt e (a + 0)
  have h1 := readEEPROM_lt e (a + 1)
  have h2 := readEEPROM_lt e (a + 2)
  have h3 := readEEPROM_lt e (a + 3)
  omega

theorem readEEPROM_writeEEPROM (e : EEPROM) (a d b : Nat) :
    readEEPROM (writeEEPROM e a d) b
      = if b % 65536 = a % 65536 then d % 256 else readEEPROM e b := by
  unfold readEEPROM writeEEPROM
  by_cases h : b % 65536 = a % 65536 <;> simp [h]

theorem readEEPROM_writeEEPROM_ne (e : EEPROM) (a d b : Nat) (h : b % 65536 ≠ a % 65536) :
    readEEPROM (writeEEPROM e a d) b = readEEPROM e b := by
  rw [readEEPROM_writeEEPROM, if_neg h]

theorem readEEPROM_writeUnsignedLong_ne (e : EEPROM) (a v b : Nat)
    (h : ∀ i, i < 4 → b % 65536 ≠ (a + i) % 65536) :
    readEEPROM (writeUnsignedLong e a v) b = readEEPROM e b := by
  unfold writeUnsignedLong
  simp only []
  rw [readEEPROM_writeEEPROM_ne _ _ _ _ (h 3 (by norm_num)),
    readEEPROM_writeEEPROM_ne _ _ _ _ (h 2 (by norm_num)),
    readEEPROM_writeEEPROM_ne _ _ _ _ (h 1 (by norm_num)),
    readEEPROM_writeEEPROM_ne _ _ _ _ (h 0 (by norm_num))]

theorem byteOf_recompose (v : Nat) (h : v < 4294967296) :
    byteOf v 0 % 256 + 256 * (byteOf v 1 % 256) + 65536 * (byteOf v 2 % 256)
      + 16777216 * (byteOf v 3 % 256) = v := by
  unfold byteOf
  norm_num
  omega

theorem readUnsignedLong_writeUnsignedLong_same (e : EEPROM) (a v : Nat) (h : a + 3 < 65536) :
    readUnsignedLong (writeUnsignedLong e a v) a = wrapU32 v := by
  have hv : wrapU32 v < 4294967296 := Nat.mod_lt _ (by norm_num)
  rw [← byteOf_recompose (wrapU32 v) hv]
  unfold readUnsignedLong writeUnsignedLong
  simp only [readEEPROM_writeEEPROM]
  have e0 : a % 65536 = a := by omega
  have e1 : (a + 1) % 65536 = a + 1 := by omega
  have e2 : (a + 2) % 65536 = a + 2 := by omega
  have e3 : (a + 3) % 65536 = a + 3 := by omega
  simp [e0, e1, e2, e3]

theorem readUnsignedLong_writeUnsignedLong_ne (e : EEPROM) (a v b : Nat)
    (ha : a + 3 < 65536) (hb : b + 3 < 65536) (hd : a + 3 < b ∨ b + 3 < a) :
    readUnsignedLong (writeUnsignedLong e a v) b = readUnsignedLong e b := by
  unfold readUnsignedLong
  rw [readEEPROM_writeUnsignedLong_ne, readEEPROM_writeUnsignedLong_ne,
    readEEPROM_writeUnsignedLong_ne, readEEPROM_writeUnsignedLong_ne] <;>
  · intro i hi
    omega

theorem readUnsignedLong_writeEEPROM_ne (e : EEPROM) (a d b : Nat)
    (hb : b + 3 < 65536) (hd : a % 65536 < b ∨ b + 3 < a % 65536) :
    readUnsignedLong (writeEEPROM e a d) b = readUnsignedLong e b := by
  unfold readUnsignedLong
  rw [readEEPROM_writeEEPROM_ne, readEEPROM_writeEEPROM_ne,
    readEEPROM_writeEEPROM_ne, readEEPROM_writeEEPROM_ne] <;> omega

theorem readEEPROM_writeEEPROM_same (e : EEPROM) (a d : Nat) :
    readEEPROM (writeEEPROM e a d) a = d % 256 := by
  rw [readEEPROM_writeEEPROM, if_pos rfl]

theorem readEEPROM_writeUnsignedLong_ne' (e : EEPROM) (a v b : Nat)
    (ha : a + 3 < 65536) (hd : b % 65536 < a ∨ a + 3 < b % 65536) :
    readEEPROM (writeUnsignedLong e a v) b = readEEPROM e b := by
  apply readEEPROM_writeUnsignedLong_ne
  intro i hi
  omega

theorem logIndex_of_pos (lastDay : Nat) (h : 1 ≤ lastDay) :
    logIndex lastDay = (lastDay - 1) % 30 := by
  unfold logIndex
  obtain ⟨k, rfl⟩ : ∃ k, lastDay = k + 1 := ⟨lastDay - 1, by omega⟩
  have : ((k + 1 : ℕ) : ℤ) - 1 = (k : ℤ) := by push_cast; ring
  rw [this]
  have h2 : (k : ℤ).tmod 30 = ((k % 30 : ℕ) : ℤ) := by
    rw [Int.tmod_eq_emod] <;> omega
  rw [h2]
  omega

theorem logIndex_zero : logIndex 0 = 255 := by decide

theorem logIndex_lt (lastDay : Nat) : logIndex lastDay < 256 := by
  unfold logIndex
  omega

theorem save_total (st : State) (t : Nat) (now : DateTime)
    (h : 60 ≤ subU32 (wrapU32 t) st.lastSave) :
    readUnsignedLong (saveToEEPROM st t now).eeprom ADDR_TOTAL_LITERS
      = wrapU32 (readUnsignedLong st.eeprom ADDR_TOTAL_LITERS
          + f32toUnsignedLong st.sessionVolume) := by
  unfold saveToEEPROM
  rw [if_pos h]
  simp only [ADDR_TOTAL_LITERS, ADDR_CURRENT_MONTH, ADDR_CURRENT_DAY, ADDR_PREVIOUS_MONTH,
    ADDR_LAST_DAY, ADDR_LAST_MONTH, ADDR_DAILY_LOG_START]
  rw [readUnsignedLong_writeUnsignedLong_ne _ _ _ _ (by norm_num) (by norm_num) (by norm_num),
    readUnsignedLong_writeUnsignedLong_ne _ _ _ _ (by norm_num) (by norm_num) (by norm_num),
    readUnsignedLong_writeUnsignedLong_same _ _ _ (by norm_num)]
  simp [wrapU32]

theorem save_day_rollover (st : State) (t : Nat) (now : DateTime)
    (h : 60 ≤ subU32 (wrapU32 t) st.lastSave)
    (hd : now.day.val ≠ readEEPROM st.eeprom ADDR_LAST_DAY) :
    readUnsignedLong (saveToEEPROM st t now).eeprom ADDR_CURRENT_DAY = 0
    ∧ readEEPROM (saveToEEPROM st t now).eeprom ADDR_LAST_DAY = now.day.val
    ∧ readUnsignedLong (saveToEEPROM st t now).eeprom
        (ADDR_DAILY_LOG_START + logIndex (readEEPROM st.eeprom ADDR_LAST_DAY) * 4)
      = wrapU32 (readUnsignedLong st.eeprom ADDR_CURRENT_DAY
          + f32toUnsignedLong st.sessionVolume) := by
  have hl := logIndex_lt (readEEPROM st.eeprom ADDR_LAST_DAY)
  have hday := now.day.isLt
  unfold saveToEEPROM
  rw [if_pos h]
  simp only [ADDR_TOTAL_LITERS, ADDR_CURRENT_MONTH, ADDR_CURRENT_DAY, ADDR_PREVIOUS_MONTH,
    ADDR_LAST_DAY, ADDR_LAST_MONTH, ADDR_DAILY_LOG_START] at hd hl ⊢
  simp only [hd, ne_eq, not_false_eq_true, if_true]
  refine ⟨?_, ?_, ?_⟩
  · rw [readUnsignedLong_writeUnsignedLong_same _ _ _ (by norm_num)]
    rfl
  · split_ifs <;>
      simp (disch := omega) [readEEPROM_writeUnsignedLong_ne', readEEPROM_writeEEPROM_ne,
        readEEPROM_writeEEPROM_same, Nat.mod_eq_of_lt hday]
  · split_ifs <;>
      simp (disch := omega) [readUnsignedLong_writeUnsignedLong_ne,
        readUnsignedLong_writeEEPROM_ne, readUnsignedLong_writeUnsignedLong_same, wrapU32]

theorem save_day_same (st : State) (t : Nat) (now : DateTime)
    (h : 60 ≤ subU32 (wrapU32 t) st.lastSave)
    (hd : now.day.val = readEEPROM st.eeprom ADDR_LAST_DAY) :
    readUnsignedLong (saveToEEPROM st t now).eeprom ADDR_CURRENT_DAY
      = wrapU32 (readUnsignedLong st.eeprom ADDR_CURRENT_DAY
          + f32toUnsignedLong st.sessionVolume)
    ∧ readEEPROM (saveToEEPROM st t now).eeprom ADDR_LAST_DAY
      = readEEPROM st.eeprom ADDR_LAST_DAY := by
  unfold saveToEEPROM
  rw [if_pos h]
  simp only [ADDR_TOTAL_LITERS, ADDR_CURRENT_MONTH, ADDR_CURRENT_DAY, ADDR_PREVIOUS_MONTH,
    ADDR_LAST_DAY, ADDR_LAST_MONTH, ADDR_DAILY_LOG_START] at hd ⊢
  simp only [hd, ne_eq, not_true_eq_false, if_false]
  refine ⟨?_, ?_⟩
  · rw [readUnsignedLong_writeUnsignedLong_same _ _ _ (by norm_num)]
    simp [wrapU32]
  · split_ifs <;>
      simp (disch := omega) [readEEPROM_writeUnsignedLong_ne', readEEPROM_writeEEPROM_ne]

theorem save_month_rollover (st : State) (t : Nat) (now : DateTime)
    (h : 60 ≤ subU32 (wrapU32 t) st.lastSave)
    (hm : now.month.val ≠ readEEPROM st.eeprom ADDR_LAST_MONTH) :
    readUnsignedLong (saveToEEPROM st t now).eeprom ADDR_PREVIOUS_MONTH
      = wrapU32 (readUnsignedLong st.eeprom ADDR_CURRENT_MONTH
          + f32toUnsignedLong st.sessionVolume)
    ∧ readUnsignedLong (saveToEEPROM st t now).eeprom ADDR_CURRENT_MONTH = 0
    ∧ readEEPROM (saveToEEPROM st t now).eeprom ADDR_LAST_MONTH = now.month.val := by
  have hmon := now.month.isLt
  unfold saveToEEPROM
  rw [if_pos h]
  simp only [ADDR_TOTAL_LITERS, ADDR_CURRENT_MONTH, ADDR_CURRENT_DAY, ADDR_PREVIOUS_MONTH,
    ADDR_LAST_DAY, ADDR_LAST_MONTH, ADDR_DAILY_LOG_START] at hm ⊢
  simp only [hm, ne_eq, not_false_eq_true, if_true]
  refine ⟨?_, ?_, ?_⟩
  · simp (disch := omega) [readUnsignedLong_writeUnsignedLong_ne,
      readUnsignedLong_writeEEPROM_ne, readUnsignedLong_writeUnsignedLong_same, wrapU32]
  · simp (disch := omega) [readUnsignedLong_writeUnsignedLong_ne,
      readUnsignedLong_writeUnsignedLong_same, wrapU32]
  · simp (disch := omega) [readEEPROM_writeUnsignedLong_ne', readEEPROM_writeEEPROM_same,
      Nat.mod_eq_of_lt hmon]

theorem save_month_same (st : State) (t : Nat) (now : DateTime)
    (h : 60 ≤ subU32 (wrapU32 t) st.lastSave)
    (hm : now.month.val = readEEPROM st.eeprom ADDR_LAST_MONTH) :
    readUnsignedLong (saveToEEPROM st t now).eeprom ADDR_PREVIOUS_MONTH
      = readUnsignedLong st.eeprom ADDR_PREVIOUS_MONTH
    ∧ readUnsignedLong (saveToEEPROM st t now).eeprom ADDR_CURRENT_MONTH
      = wrapU32 (readUnsignedLong st.eeprom ADDR_CURRENT_MONTH
          + f32toUnsignedLong st.sessionVolume)
    ∧ readEEPROM (saveToEEPROM st t now).eeprom ADDR_LAST_MONTH
      = readEEPROM st.eeprom ADDR_LAST_MONTH := by
  have hl := logIndex_lt (readEEPROM st.eeprom ADDR_LAST_DAY)
  unfold saveToEEPROM
  rw [if_pos h]
  simp only [ADDR_TOTAL_LITERS, ADDR_CURRENT_MONTH, ADDR_CURRENT_DAY, ADDR_PREVIOUS_MONTH,
    ADDR_LAST_DAY, ADDR_LAST_MONTH, ADDR_DAILY_LOG_START] at hm hl ⊢
  simp only [hm, ne_eq, not_true_eq_false, if_false]
  refine ⟨?_, ?_, ?_⟩
  · split_ifs <;>
      simp (disch := omega) [readUnsignedLong_writeUnsignedLong_ne,
        readUnsignedLong_writeEEPROM_ne]
  · simp (disch := omega) [readUnsignedLong_writeUnsignedLong_ne,
      readUnsignedLong_writeUnsignedLong_same, wrapU32]
  · split_ifs <;>
      simp (disch := omega) [readEEPROM_writeUnsignedLong_ne', readEEPROM_writeEEPROM_ne]

theorem save_session (st : State) (t : Nat) (now : DateTime)
    (h : 60 ≤ subU32 (wrapU32 t) st.lastSave) :
    (saveToEEPROM st t now).sessionVolume
      = f32sub st.sessionVolume (f32ofNat (f32toUnsignedLong st.sessionVolume)) := by
  unfold saveToEEPROM
  rw [if_pos h]

theorem save_not_due (st : State) (t : Nat) (now : DateTime)
    (h : ¬ 60 ≤ subU32 (wrapU32 t) st.lastSave) : saveToEEPROM st t now = st := by
  unfold saveToEEPROM
  rw [if_neg h]

/-! ## Binary32 rounding: error bounds -/

theorem roundHalfEven_error (y : ℚ) : |(roundHalfEven y : ℚ) - y| ≤ 1 / 2 := by
  have h1 := Int.floor_le y
  have h2 := Int.lt_floor_add_one y
  unfold roundHalfEven
  simp only []
  rw [abs_le]
  split_ifs <;> push_cast <;> constructor <;> linarith

/-- Relative rounding error of binary32 in the normal range. -/
theorem f32round_rel (x : ℚ) (hx : (2 : ℚ) ^ (-126 : ℤ) ≤ x) :
    x * (1 - 1 / 2 ^ 24) ≤ f32round x ∧ f32round x ≤ x * (1 + 1 / 2 ^ 24) := by
  have hpos : (0 : ℚ) < x := lt_of_lt_of_le (by positivity) hx
  have habs : |x| = x := abs_of_pos hpos
  have hlog : (-126 : ℤ) ≤ Int.log 2 |x| := by
    rw [habs]
    exact (Int.zpow_le_iff_le_log (by norm_num) hpos).mp (by exact_mod_cast hx)
  have hle : ((2 : ℚ)) ^ (Int.log 2 |x|) ≤ x := by
    have := Int.zpow_log_le_self (b := 2) (r := x) (by norm_num) hpos
    rw [habs]
    exact_mod_cast this
  have hp : f32ulpExp x = Int.log 2 |x| - 23 := by
    unfold f32ulpExp
    omega
  unfold f32round
  rw [hp]
  generalize Int.log 2 |x| = e at hle
  have h2p : (0 : ℚ) < 2 ^ (e - 23) := by positivity
  have herr := roundHalfEven_error (x / 2 ^ (e - 23))
  rw [abs_le] at herr
  have hsplit : (2 : ℚ) ^ e = 2 ^ (e - 23) * 2 ^ (23 : ℤ) := by
    rw [← zpow_add₀ (by norm_num)]
    congr 1
    ring
  have hx2 : x = x / 2 ^ (e - 23) * 2 ^ (e - 23) := by
    field_simp
  have hulp : (2 : ℚ) ^ (e - 23) ≤ x / 2 ^ 23 := by
    rw [le_div_iff₀ (by positivity)]
    have : (2 : ℚ) ^ (23 : ℤ) = 2 ^ 23 := by norm_num
    rw [← this, ← hsplit]
    exact hle
  set y := x / 2 ^ (e - 23) with hy
  set k : ℚ := (roundHalfEven y : ℚ) with hk
  have hk1 : y - 1 / 2 ≤ k := by linarith [herr.1]
  have hk2 : k ≤ y + 1 / 2 := by linarith [herr.2]
  constructor
  · calc x * (1 - 1 / 2 ^ 24) = x - x / 2 ^ 23 / 2 := by ring
      _ ≤ x - 2 ^ (e - 23) / 2 := by linarith
      _ = (y - 1 / 2) * 2 ^ (e - 23) := by linear_combination hx2
      _ ≤ k * 2 ^ (e - 23) := mul_le_mul_of_nonneg_right hk1 (le_of_lt h2p)
  · calc k * 2 ^ (e - 23) ≤ (y + 1 / 2) * 2 ^ (e - 23) :=
        mul_le_mul_of_nonneg_right hk2 (le_of_lt h2p)
      _ = x + 2 ^ (e - 23) / 2 := by linear_combination -hx2
      _ ≤ x + x / 2 ^ 23 / 2 := by linarith
      _ = x * (1 + 1 / 2 ^ 24) := by ring

theorem f32round_zero : f32round 0 = 0 := by
  have := f32round_of_dyadic 0 0 (by norm_num) (by norm_num)
  simpa using this

theorem f32round_natCast (n : ℕ) (h : n < 16777216) : f32round (n : ℚ) = n := by
  have := f32round_of_dyadic (n : ℤ) 0 (by rw [abs_of_nonneg (by positivity)]; exact_mod_cast h)
    (by norm_num)
  simpa using this

theorem f32round_rel_of_ge (x : ℚ) (hx : (1 : ℚ) / 2 ^ 50 ≤ x) :
    x * (1 - 1 / 2 ^ 24) ≤ f32round x ∧ f32round x ≤ x * (1 + 1 / 2 ^ 24) := by
  apply f32round_rel
  refine le_trans ?_ hx
  rw [zpow_neg, ← one_div]
  apply one_div_le_one_div_of_le (by positivity)
  norm_num

theorem scale_quotient (A B c d e : ℚ) (hB : B ≠ 0) (hd : d ≠ 0) :
    A * c / (B * d) * e = A / B * (c / d * e) := by
  field_simp
  ring

theorem abs_sub_le_of_factor (r E : ℚ) (h1 : E * (1 - 1 / 2 ^ 21) ≤ r)
    (h2 : r ≤ E * (1 + 1 / 2 ^ 21)) : |r - E| ≤ E / 2 ^ 21 := by
  rw [abs_le]
  constructor <;> linarith

theorem rate_factor_lower :
    (1 : ℚ) - 1 / 2 ^ 21 ≤ (1 - 1 / 2 ^ 24) ^ 3 / (1 + 1 / 2 ^ 24) ^ 2 * (1 - 1 / 2 ^ 24) := by
  norm_num

theorem rate_factor_upper :
    (1 + 1 / 2 ^ 24) ^ 3 / (1 - 1 / 2 ^ 24) ^ 2 * (1 + 1 / 2 ^ 24) ≤ (1 : ℚ) + 1 / 2 ^ 21 := by
  norm_num

set_option maxHeartbeats 2000000 in
/-- The flow-rate expression of `updateFlowMeasurements` on the values `P`, `W`. -/
theorem flowRate_accuracy (P W : ℕ) (hW : 1000 ≤ W) (hW2 : W < 4294967296) :
    |f32div (f32mul (f32mul (f32ofNat P) 60) 1000) (f32mul PULSES_PER_LITER (f32ofNat W))
        - (P : ℚ) * 60000 / (450 * W)|
      ≤ (P : ℚ) * 60000 / (450 * W) / 2 ^ 21 := by
  unfold f32div f32mul f32ofNat PULSES_PER_LITER
  rcases Nat.eq_zero_or_pos P with hP0 | hPpos
  · subst hP0
    simp [f32round_zero]
  have hP1 : (1 : ℚ) ≤ (P : ℚ) := by exact_mod_cast hPpos
  have hWq : (1000 : ℚ) ≤ (W : ℚ) := by exact_mod_cast hW
  have hWq2 : (W : ℚ) < 4294967296 := by exact_mod_cast hW2
  -- numerator
  obtain ⟨a1l, a1h⟩ := f32round_rel_of_ge (P : ℚ) (by linarith)
  set a1 := f32round (P : ℚ)
  have a1pos : (1 : ℚ) / 2 ≤ a1 := by nlinarith
  obtain ⟨a2l, a2h⟩ := f32round_rel_of_ge (a1 * 60) (by linarith)
  set a2 := f32round (a1 * 60)
  have a2pos : (1 : ℚ) ≤ a2 := by nlinarith
  obtain ⟨a3l, a3h⟩ := f32round_rel_of_ge (a2 * 1000) (by linarith)
  set a3 := f32round (a2 * 1000)
  have a3pos : (1 : ℚ) ≤ a3 := by nlinarith
  -- denominator
  obtain ⟨b1l, b1h⟩ := f32round_rel_of_ge (W : ℚ) (by linarith)
  set b1 := f32round (W : ℚ)
  have b1pos : (1 : ℚ) ≤ b1 := by nlinarith
  obtain ⟨b2l, b2h⟩ := f32round_rel_of_ge (450 * b1) (by linarith)
  set b2 := f32round (450 * b1)
  have b2pos : (1 : ℚ) ≤ b2 := by nlinarith
  have b2up : b2 ≤ 2 ^ 43 := by nlinarith
  -- bounds in terms of the exact operands
  have hA : (0 : ℚ) < (P : ℚ) * 60000 := by positivity
  have hB : (0 : ℚ) < 450 * (W : ℚ) := by positivity
  have a3lo : (P : ℚ) * 60000 * (1 - 1 / 2 ^ 24) ^ 3 ≤ a3 := by
    have e1 : (P : ℚ) * 60000 * (1 - 1 / 2 ^ 24) ^ 3
        = (((P : ℚ) * (1 - 1 / 2 ^ 24)) * 60 * (1 - 1 / 2 ^ 24)) * 1000 * (1 - 1 / 2 ^ 24) := by
      ring
    rw [e1]
    have s1 : ((P : ℚ) * (1 - 1 / 2 ^ 24)) * 60 * (1 - 1 / 2 ^ 24) ≤ a2 := by
      refine le_trans ?_ a2l
      apply mul_le_mul_of_nonneg_right _ (by norm_num)
      linarith
    refine le_trans ?_ a3l
    apply mul_le_mul_of_nonneg_right _ (by norm_num)
    linarith
  have a3hi : a3 ≤ (P : ℚ) * 60000 * (1 + 1 / 2 ^ 24) ^ 3 := by
    have e1 : (P : ℚ) * 60000 * (1 + 1 / 2 ^ 24) ^ 3
        = (((P : ℚ) * (1 + 1 / 2 ^ 24)) * 60 * (1 + 1 / 2 ^ 24)) * 1000 * (1 + 1 / 2 ^ 24) := by
      ring
    rw [e1]
    have s1 : a2 ≤ ((P : ℚ) * (1 + 1 / 2 ^ 24)) * 60 * (1 + 1 / 2 ^ 24) := by
      refine le_trans a2h ?_
      apply mul_le_mul_of_nonneg_right _ (by norm_num)
      linarith
    refine le_trans a3h ?_
    apply mul_le_mul_of_nonneg_right _ (by norm_num)
    linarith
  have b2lo : 450 * (W : ℚ) * (1 - 1 / 2 ^ 24) ^ 2 ≤ b2 := by
    have e1 : 450 * (W : ℚ) * (1 - 1 / 2 ^ 24) ^ 2
        = 450 * ((W : ℚ) * (1 - 1 / 2 ^ 24)) * (1 - 1 / 2 ^ 24) := by ring
    rw [e1]
    refine le_trans ?_ b2l
    apply mul_le_mul_of_nonneg_right _ (by norm_num)
    linarith
  have b2hi : b2 ≤ 450 * (W : ℚ) * (1 + 1 / 2 ^ 24) ^ 2 := by
    have e1 : 450 * (W : ℚ) * (1 + 1 / 2 ^ 24) ^ 2
        = 450 * ((W : ℚ) * (1 + 1 / 2 ^ 24)) * (1 + 1 / 2 ^ 24) := by ring
    rw [e1]
    refine le_trans b2h ?_
    apply mul_le_mul_of_nonneg_right _ (by norm_num)
    linarith
  -- quotient
  have b2pos' : (0 : ℚ) < b2 := by linarith
  have qlow : (1 : ℚ) / 2 ^ 50 ≤ a3 / b2 := by
    rw [le_div_iff₀ b2pos']
    have : (1 : ℚ) / 2 ^ 50 * b2 ≤ 1 / 2 ^ 50 * 2 ^ 43 :=
      mul_le_mul_of_nonneg_left b2up (by positivity)
    have h2 : (1 : ℚ) / 2 ^ 50 * 2 ^ 43 ≤ 1 := by norm_num
    linarith
  obtain ⟨rl, rh⟩ := f32round_rel_of_ge (a3 / b2) qlow
  have hBlo : (0 : ℚ) < 450 * (W : ℚ) * (1 - 1 / 2 ^ 24) ^ 2 := by positivity
  have qhi : a3 / b2
      ≤ (P : ℚ) * 60000 * (1 + 1 / 2 ^ 24) ^ 3 / (450 * (W : ℚ) * (1 - 1 / 2 ^ 24) ^ 2) :=
    div_le_div₀ (by positivity) a3hi hBlo b2lo
  have qlo : (P : ℚ) * 60000 * (1 - 1 / 2 ^ 24) ^ 3 / (450 * (W : ℚ) * (1 + 1 / 2 ^ 24) ^ 2)
      ≤ a3 / b2 :=
    div_le_div₀ (by linarith) a3lo b2pos' b2hi
  have hex : (0 : ℚ) < (P : ℚ) * 60000 / (450 * W) := by positivity
  have e1 := scale_quotient ((P : ℚ) * 60000) (450 * (W : ℚ)) ((1 - 1 / 2 ^ 24) ^ 3)
    ((1 + 1 / 2 ^ 24) ^ 2) (1 - 1 / 2 ^ 24) (ne_of_gt hB) (by norm_num)
  have e2 := scale_quotient ((P : ℚ) * 60000) (450 * (W : ℚ)) ((1 + 1 / 2 ^ 24) ^ 3)
    ((1 - 1 / 2 ^ 24) ^ 2) (1 + 1 / 2 ^ 24) (ne_of_gt hB) (by norm_num)
  have s1 := mul_le_mul_of_nonneg_left rate_factor_lower (le_of_lt hex)
  have s2 := mul_le_mul_of_nonneg_left rate_factor_upper (le_of_lt hex)
  rw [← e1] at s1
  rw [← e2] at s2
  have t1 := mul_le_mul_of_nonneg_right qlo (by norm_num : (0 : ℚ) ≤ 1 - 1 / 2 ^ 24)
  have t2 := mul_le_mul_of_nonneg_right qhi (by norm_num : (0 : ℚ) ≤ 1 + 1 / 2 ^ 24)
  exact abs_sub_le_of_factor _ _ (le_trans s1 (le_trans t1 rl)) (le_trans rh (le_trans t2 s2))

theorem volume_factor_lower : (1 : ℚ) - 1 / 2 ^ 22 ≤ (1 - 1 / 2 ^ 24) ^ 3 := by norm_num

theorem volume_factor_upper : (1 + 1 / 2 ^ 24) ^ 3 ≤ (1 : ℚ) + 1 / 2 ^ 22 := by norm_num

theorem abs_sub_le_of_factor22 (r E : ℚ) (h1 : E * (1 - 1 / 2 ^ 22) ≤ r)
    (h2 : r ≤ E * (1 + 1 / 2 ^ 22)) : |r - E| ≤ E / 2 ^ 22 := by
  rw [abs_le]
  constructor <;> linarith

set_option maxHeartbeats 1000000 in
/-- The session-volume update of `updateFlowMeasurements` on the values `s`, `P`. -/
theorem sessionVolume_accuracy (s : ℚ) (P : ℕ) (hs : IsF32 s) (h0 : 0 ≤ s) :
    |f32add s (f32div (f32ofNat P) PULSES_PER_LITER) - (s + (P : ℚ) / 450)|
      ≤ (s + (P : ℚ) / 450) / 2 ^ 22 := by
  unfold f32add f32div f32ofNat PULSES_PER_LITER
  rcases Nat.eq_zero_or_pos P with hP0 | hPpos
  · subst hP0
    simp only [Nat.cast_zero, f32round_zero, zero_div, add_zero, f32round_of_isF32 s hs,
      sub_self, abs_zero]
    positivity
  have hP1 : (1 : ℚ) ≤ (P : ℚ) := by exact_mod_cast hPpos
  obtain ⟨a1l, a1h⟩ := f32round_rel_of_ge (P : ℚ) (by linarith)
  set a1 := f32round (P : ℚ)
  have a1pos : (1 : ℚ) / 2 ≤ a1 := by nlinarith
  obtain ⟨cl, ch⟩ := f32round_rel_of_ge (a1 / 450) (by linarith)
  set c := f32round (a1 / 450)
  have hE : (0 : ℚ) ≤ (P : ℚ) / 450 := by positivity
  have clo : (P : ℚ) / 450 * (1 - 1 / 2 ^ 24) ^ 2 ≤ c := by
    refine le_trans ?_ cl
    have : (P : ℚ) / 450 * (1 - 1 / 2 ^ 24) ^ 2
        = (P : ℚ) * (1 - 1 / 2 ^ 24) / 450 * (1 - 1 / 2 ^ 24) := by ring
    rw [this]
    apply mul_le_mul_of_nonneg_right _ (by norm_num)
    linarith
  have chi : c ≤ (P : ℚ) / 450 * (1 + 1 / 2 ^ 24) ^ 2 := by
    refine le_trans ch ?_
    have : (P : ℚ) / 450 * (1 + 1 / 2 ^ 24) ^ 2
        = (P : ℚ) * (1 + 1 / 2 ^ 24) / 450 * (1 + 1 / 2 ^ 24) := by ring
    rw [this]
    apply mul_le_mul_of_nonneg_right _ (by norm_num)
    linarith
  have cpos : (1 : ℚ) / 2 ^ 50 ≤ c := by
    refine le_trans ?_ cl
    nlinarith
  obtain ⟨rl, rh⟩ := f32round_rel_of_ge (s + c) (by linarith)
  have sumlo : (s + (P : ℚ) / 450) * (1 - 1 / 2 ^ 24) ^ 2 ≤ s + c := by
    have : s * (1 - 1 / 2 ^ 24) ^ 2 ≤ s := by
      have h1 : ((1 : ℚ) - 1 / 2 ^ 24) ^ 2 ≤ 1 := by norm_num
      nlinarith
    linarith
  have sumhi : s + c ≤ (s + (P : ℚ) / 450) * (1 + 1 / 2 ^ 24) ^ 2 := by
    have : s ≤ s * (1 + 1 / 2 ^ 24) ^ 2 := by
      have h1 : (1 : ℚ) ≤ (1 + 1 / 2 ^ 24) ^ 2 := by norm_num
      nlinarith
    linarith
  have hS : (0 : ℚ) ≤ s + (P : ℚ) / 450 := by positivity
  have t1 := mul_le_mul_of_nonneg_right sumlo (by norm_num : (0 : ℚ) ≤ 1 - 1 / 2 ^ 24)
  have t2 := mul_le_mul_of_nonneg_right sumhi (by norm_num : (0 : ℚ) ≤ 1 + 1 / 2 ^ 24)
  have s1 := mul_le_mul_of_nonneg_left volume_factor_lower hS
  have s2 := mul_le_mul_of_nonneg_left volume_factor_upper hS
  have e1 : (s + (P : ℚ) / 450) * (1 - 1 / 2 ^ 24) ^ 2 * (1 - 1 / 2 ^ 24)
      = (s + (P : ℚ) / 450) * (1 - 1 / 2 ^ 24) ^ 3 := by ring
  have e2 : (s + (P : ℚ) / 450) * (1 + 1 / 2 ^ 24) ^ 2 * (1 + 1 / 2 ^ 24)
      = (s + (P : ℚ) / 450) * (1 + 1 / 2 ^ 24) ^ 3 := by ring
  rw [e1] at t1
  rw [e2] at t2
  exact abs_sub_le_of_factor22 _ _ (le_trans s1 (le_trans t1 rl)) (le_trans rh (le_trans t2 s2))

/-! ## The commit cycle: auxiliary facts -/

theorem f32toUnsignedLong_eq (s : ℚ) (n : ℕ) (h1 : (n : ℚ) ≤ s) (h2 : s < n + 1)
    (h3 : n ≤ 4294967295) : f32toUnsignedLong s = n := by
  have hf : ⌊s⌋ = (n : ℤ) := by
    rw [Int.floor_eq_iff]
    constructor
    · exact_mod_cast h1
    · exact_mod_cast h2
  unfold f32toUnsignedLong
  rw [hf]
  simp
  omega

theorem storedTotal_save (st : State) (t : Nat) (now : DateTime) :
    storedTotal (saveToEEPROM st t now)
      = if 60 ≤ subU32 (wrapU32 t) st.lastSave
        then wrapU32 (storedTotal st + f32toUnsignedLong st.sessionVolume)
        else storedTotal st := by
  unfold storedTotal
  split_ifs with h
  · exact save_total st t now h
  · rw [save_not_due st t now h]

theorem runCommits_append (st : State) (xs ys : List CommitCycle) :
    runCommits st (xs ++ ys) = runCommits (runCommits st xs) ys := by
  induction xs generalizing st with
  | nil => rfl
  | cons x xs ih => simp [runCommits, ih]

theorem storedTotal_cycle_bounds (st : State) (c : CommitCycle)
    (h : storedTotal st + cycleLiters c < 4294967296) :
    storedTotal st
        ≤ storedTotal (saveToEEPROM { st with sessionVolume := c.sessionVolume } c.currentTime c.now)
    ∧ storedTotal (saveToEEPROM { st with sessionVolume := c.sessionVolume } c.currentTime c.now)
        ≤ storedTotal st + cycleLiters c := by
  rw [storedTotal_save]
  have e : storedTotal { st with sessionVolume := c.sessionVolume } = storedTotal st := rfl
  simp only [e]
  unfold cycleLiters at h ⊢
  unfold wrapU32
  split_ifs <;> omega

theorem storedTotal_run_bounds (cycles : List CommitCycle) (st : State)
    (h : storedTotal st + (cycles.map cycleLiters).sum < 4294967296) :
    storedTotal st ≤ storedTotal (runCommits st cycles)
    ∧ storedTotal (runCommits st cycles) ≤ storedTotal st + (cycles.map cycleLiters).sum := by
  induction cycles generalizing st with
  | nil => simp [runCommits]
  | cons c cs ih =>
    simp only [List.map_cons, List.sum_cons] at h ⊢
    have hb := storedTotal_cycle_bounds st c (by omega)
    have := ih (saveToEEPROM { st with sessionVolume := c.sessionVolume } c.currentTime c.now)
      (by omega)
    simp only [runCommits]
    omega

theorem save_day_rollover_slot (st : State) (t : Nat) (now : DateTime)
    (h : 60 ≤ subU32 (wrapU32 t) st.lastSave)
    (hpos : 1 ≤ readEEPROM st.eeprom ADDR_LAST_DAY)
    (hd : now.day.val ≠ readEEPROM st.eeprom ADDR_LAST_DAY) :
    dailyLogSlot (saveToEEPROM st t now).eeprom ((readEEPROM st.eeprom ADDR_LAST_DAY - 1) % 30)
      = wrapU32 (readUnsignedLong st.eeprom ADDR_CURRENT_DAY
          + f32toUnsignedLong st.sessionVolume) := by
  unfold dailyLogSlot
  rw [← logIndex_of_pos _ hpos]
  exact (save_day_rollover st t now h hd).2.2

theorem save_log_other (st : State) (t : Nat) (now : DateTime)
    (h : 60 ≤ subU32 (wrapU32 t) st.lastSave) (i : Nat) (hi : i < 30)
    (hd : now.day.val = readEEPROM st.eeprom ADDR_LAST_DAY
      ∨ i ≠ logIndex (readEEPROM st.eeprom ADDR_LAST_DAY)) :
    dailyLogSlot (saveToEEPROM st t now).eeprom i = dailyLogSlot st.eeprom i := by
  have hl := logIndex_lt (readEEPROM st.eeprom ADDR_LAST_DAY)
  unfold dailyLogSlot saveToEEPROM
  rw [if_pos h]
  simp only [ADDR_TOTAL_LITERS, ADDR_CURRENT_MONTH, ADDR_CURRENT_DAY, ADDR_PREVIOUS_MONTH,
    ADDR_LAST_DAY, ADDR_LAST_MONTH, ADDR_DAILY_LOG_START] at hd hl ⊢
  rcases hd with hd | hd
  · simp only [hd, ne_eq, not_true_eq_false, if_false]
    split_ifs <;>
      simp (disch := omega) [readUnsignedLong_writeUnsignedLong_ne,
        readUnsignedLong_writeEEPROM_ne]
  · split_ifs <;>
      simp (disch := omega) [readUnsignedLong_writeUnsignedLong_ne,
        readUnsignedLong_writeEEPROM_ne]

theorem logIndex_in_log_of_pos (lastDay : Nat) (h : 1 ≤ lastDay) :
    logIndex lastDay < 30
    ∧ 30 ≤ ADDR_DAILY_LOG_START + logIndex lastDay * 4
    ∧ ADDR_DAILY_LOG_START + logIndex lastDay * 4 + 3 ≤ 149 := by
  rw [logIndex_of_pos lastDay h]
  unfold ADDR_DAILY_LOG_START
  omega

theorem rolloverExample_liters : f32toUnsignedLong rolloverExample.sessionVolume = 2 :=
  f32toUnsignedLong_eq _ 2 (by norm_num [rolloverExample]) (by norm_num [rolloverExample])
    (by norm_num)

theorem scenarioB_liters : f32toUnsignedLong scenarioB.sessionVolume = 0 :=
  f32toUnsignedLong_eq _ 0 (by norm_num [scenarioB]) (by norm_num [scenarioB]) (by norm_num)

theorem erasedExample_liters : f32toUnsignedLong erasedExample.sessionVolume = 1 :=
  f32toUnsignedLong_eq _ 1 (by norm_num [erasedExample]) (by norm_num [erasedExample])
    (by norm_num)

theorem monthWrapExample_liters : f32toUnsignedLong monthWrapExample.sessionVolume = 1 :=
  f32toUnsignedLong_eq _ 1 (by norm_num [monthWrapExample]) (by norm_num [monthWrapExample])
    (by norm_num)

theorem twoCycles_liters : (twoCycles.map cycleLiters).sum = 3 := by
  have h1 : f32toUnsignedLong (5 / 2) = 2 :=
    f32toUnsignedLong_eq _ 2 (by norm_num) (by norm_num) (by norm_num)
  have h2 : f32toUnsignedLong (7 / 4) = 1 :=
    f32toUnsignedLong_eq _ 1 (by norm_num) (by norm_num) (by norm_num)
  simp [twoCycles, cycleLiters, h1, h2]

theorem twoCycles_first_total :
    storedTotal (runCommits rolloverExample
      [{ sessionVolume := 5 / 2, currentTime := 60, now := clockAt 5 3 }]) = 1002 := by
  simp only [runCommits]
  rw [storedTotal_save, if_pos (by decide)]
  have h1 : f32toUnsignedLong (5 / 2) = 2 :=
    f32toUnsignedLong_eq _ 2 (by norm_num) (by norm_num) (by norm_num)
  have ht : storedTotal { rolloverExample with sessionVolume := 5 / 2 } = 1000 := by decide
  rw [ht]
  simp only [h1]
  decide

theorem twoCycles_second_liters :
    cycleLiters { sessionVolume := 7 / 4, currentTime := 120, now := clockAt 6 3 } = 1 :=
  f32toUnsignedLong_eq _ 1 (by norm_num) (by norm_num) (by norm_num)

/-! ## The commit cycle: day rollover, month rollover, total -/

/-- C1 (amended): in a due commit cycle of `saveToEEPROM` that starts with stored
`lastDay = d0` in 1..255, stored `currentDayLiters = v` and a clock day different from `d0`,
the daily-log slot `(d0 - 1) mod 30` afterwards holds `v` plus the liters committed in this
cycle (in 32-bit unsigned arithmetic), the stored `currentDayLiters` is 0 and the stored
`lastDay` is the clock day. -/
theorem C1_day_rollover_archives_total_with_commit (st : State) (currentTime : Nat)
    (now : DateTime) (d0 v : Nat)
    (hdue : 60 ≤ subU32 (wrapU32 currentTime) st.lastSave)
    (hd0 : readEEPROM st.eeprom ADDR_LAST_DAY = d0)
    (hv : readUnsignedLong st.eeprom ADDR_CURRENT_DAY = v)
    (hpos : 1 ≤ d0) (hne : now.day.val ≠ d0) :
    dailyLogSlot (saveToEEPROM st currentTime now).eeprom ((d0 - 1) % 30)
      = (v + f32toUnsignedLong st.sessionVolume) % 4294967296
    ∧ readUnsignedLong (saveToEEPROM st currentTime now).eeprom ADDR_CURRENT_DAY = 0
    ∧ readEEPROM (saveToEEPROM st currentTime now).eeprom ADDR_LAST_DAY = now.day.val := by
  subst hd0 hv
  have h := save_day_rollover st currentTime now hdue hne
  exact ⟨save_day_rollover_slot st currentTime now hdue hpos hne, h.1, h.2.1⟩

/-- C1, witness of the amended statement: last day 5, today 120, 2.5 liters in the session,
clock day 6. -/
theorem C1_witness :
    60 ≤ subU32 (wrapU32 60) rolloverExample.lastSave
    ∧ readEEPROM rolloverExample.eeprom ADDR_LAST_DAY = 5
    ∧ readUnsignedLong rolloverExample.eeprom ADDR_CURRENT_DAY = 120
    ∧ (1 ≤ 5 ∧ (clockAt 6 3).day.val ≠ 5)
    ∧ (dailyLogSlot (saveToEEPROM rolloverExample 60 (clockAt 6 3)).eeprom ((5 - 1) % 30)
          = (120 + f32toUnsignedLong rolloverExample.sessionVolume) % 4294967296
      ∧ readUnsignedLong (saveToEEPROM rolloverExample 60 (clockAt 6 3)).eeprom ADDR_CURRENT_DAY = 0
      ∧ readEEPROM (saveToEEPROM rolloverExample 60 (clockAt 6 3)).eeprom ADDR_LAST_DAY
          = (clockAt 6 3).day.val) :=
  ⟨by decide, by decide, by decide, ⟨by decide, by decide⟩,
    C1_day_rollover_archives_total_with_commit rolloverExample 60 (clockAt 6 3) 5 120
      (by decide) (by decide) (by decide) (by decide) (by decide)⟩

/-- C1 fails as stated: with `lastDay = 5`, `currentDayLiters = 120`, 2.5 liters in the
session (2 liters committed) and clock day 6, slot 4 holds 122 rather than 120 and the stored
`currentDayLiters` is 0 rather than the 2 committed liters; and on an erased EEPROM
(`lastDay = 255`, `currentDayLiters = 2 ^ 32 - 1`) with one liter committed the archived sum
wraps, so that slot 14 holds 0. -/
theorem C1_counterexample :
    60 ≤ subU32 (wrapU32 60) rolloverExample.lastSave
    ∧ readEEPROM rolloverExample.eeprom ADDR_LAST_DAY = 5
    ∧ readUnsignedLong rolloverExample.eeprom ADDR_CURRENT_DAY = 120
    ∧ (clockAt 6 3).day.val = 6
    ∧ f32toUnsignedLong rolloverExample.sessionVolume = 2
    ∧ dailyLogSlot (saveToEEPROM rolloverExample 60 (clockAt 6 3)).eeprom ((5 - 1) % 30) = 122
    ∧ readUnsignedLong (saveToEEPROM rolloverExample 60 (clockAt 6 3)).eeprom ADDR_CURRENT_DAY = 0
    ∧ ¬ (dailyLogSlot (saveToEEPROM rolloverExample 60 (clockAt 6 3)).eeprom ((5 - 1) % 30) = 120
        ∧ readUnsignedLong (saveToEEPROM rolloverExample 60 (clockAt 6 3)).eeprom ADDR_CURRENT_DAY
            = f32toUnsignedLong rolloverExample.sessionVolume
        ∧ readEEPROM (saveToEEPROM rolloverExample 60 (clockAt 6 3)).eeprom ADDR_LAST_DAY = 6)
    ∧ readEEPROM erasedExample.eeprom ADDR_LAST_DAY = 255
    ∧ readUnsignedLong erasedExample.eeprom ADDR_CURRENT_DAY = 4294967295
    ∧ f32toUnsignedLong erasedExample.sessionVolume = 1
    ∧ dailyLogSlot (saveToEEPROM erasedExample 60 (clockAt 1 1)).eeprom ((255 - 1) % 30) = 0 := by
  have hwrap : dailyLogSlot (saveToEEPROM erasedExample 60 (clockAt 1 1)).eeprom
      ((255 - 1) % 30) = 0 := by
    have h := save_day_rollover_slot erasedExample 60 (clockAt 1 1) (by decide) (by decide)
      (by decide)
    have hld : readEEPROM erasedExample.eeprom ADDR_LAST_DAY = 255 := by decide
    have hcd : readUnsignedLong erasedExample.eeprom ADDR_CURRENT_DAY = 4294967295 := by decide
    rw [hld, hcd, erasedExample_liters] at h
    rw [h]
    decide
  have hdue : 60 ≤ subU32 (wrapU32 60) rolloverExample.lastSave := by decide
  have hne : (clockAt 6 3).day.val ≠ readEEPROM rolloverExample.eeprom ADDR_LAST_DAY := by decide
  have hpos : 1 ≤ readEEPROM rolloverExample.eeprom ADDR_LAST_DAY := by decide
  have hslot := save_day_rollover_slot rolloverExample 60 (clockAt 6 3) hdue hpos hne
  have hday := (save_day_rollover rolloverExample 60 (clockAt 6 3) hdue hne).1
  have hld : readEEPROM rolloverExample.eeprom ADDR_LAST_DAY = 5 := by decide
  have hcd : readUnsignedLong rolloverExample.eeprom ADDR_CURRENT_DAY = 120 := by decide
  rw [hld, hcd, rolloverExample_liters] at hslot
  have hslot' : dailyLogSlot (saveToEEPROM rolloverExample 60 (clockAt 6 3)).eeprom ((5 - 1) % 30)
      = 122 := by
    rw [hslot]
    decide
  refine ⟨hdue, hld, hcd, by decide, rolloverExample_liters, hslot', hday, ?_, by decide,
    by decide, erasedExample_liters, hwrap⟩
  rintro ⟨h1, -, -⟩
  rw [hslot'] at h1
  exact absurd h1 (by decide)

/-- C2 (amended): in a due commit cycle whose clock day differs from the stored `lastDay`,
with `lastDay` in 1..255, the liters committed in the cycle go to the day that just ended:
the daily-log slot `(lastDay - 1) mod 30` receives the pre-commit `currentDayLiters` plus the
committed liters modulo `2 ^ 32` (the plain sum when that is below `2 ^ 32`), the stored
`currentDayLiters` becomes 0 and `lastDay` becomes the clock day. -/
theorem C2_boundary_liters_credited_to_ended_day (st : State) (currentTime : Nat)
    (now : DateTime)
    (hdue : 60 ≤ subU32 (wrapU32 currentTime) st.lastSave)
    (hpos : 1 ≤ readEEPROM st.eeprom ADDR_LAST_DAY)
    (hne : now.day.val ≠ readEEPROM st.eeprom ADDR_LAST_DAY) :
    dailyLogSlot (saveToEEPROM st currentTime now).eeprom
        ((readEEPROM st.eeprom ADDR_LAST_DAY - 1) % 30)
      = (readUnsignedLong st.eeprom ADDR_CURRENT_DAY + f32toUnsignedLong st.sessionVolume)
          % 4294967296
    ∧ (readUnsignedLong st.eeprom ADDR_CURRENT_DAY + f32toUnsignedLong st.sessionVolume
          < 4294967296 →
        dailyLogSlot (saveToEEPROM st currentTime now).eeprom
            ((readEEPROM st.eeprom ADDR_LAST_DAY - 1) % 30)
          = readUnsignedLong st.eeprom ADDR_CURRENT_DAY + f32toUnsignedLong st.sessionVolume)
    ∧ readUnsignedLong (saveToEEPROM st currentTime now).eeprom ADDR_CURRENT_DAY = 0
    ∧ readEEPROM (saveToEEPROM st currentTime now).eeprom ADDR_LAST_DAY = now.day.val := by
  have h := save_day_rollover st currentTime now hdue hne
  have hs := save_day_rollover_slot st currentTime now hdue hpos hne
  refine ⟨hs, ?_, h.1, h.2.1⟩
  intro hlt
  rw [hs]
  exact Nat.mod_eq_of_lt hlt

/-- C2, scenario B of the spec as a witness: `currentDayLiters = 120`, `lastDay = 5`, clock
day 6, session volume below one liter give `DailyLog[4] = 120`, `currentDayLiters = 0`,
`lastDay = 6`. -/
theorem C2_witness :
    60 ≤ subU32 (wrapU32 60) scenarioB.lastSave
    ∧ readEEPROM scenarioB.eeprom ADDR_LAST_DAY = 5
    ∧ readUnsignedLong scenarioB.eeprom ADDR_CURRENT_DAY = 120
    ∧ scenarioB.sessionVolume < 1
    ∧ (clockAt 6 3).day.val = 6
    ∧ dailyLogSlot (saveToEEPROM scenarioB 60 (clockAt 6 3)).eeprom 4 = 120
    ∧ readUnsignedLong (saveToEEPROM scenarioB 60 (clockAt 6 3)).eeprom ADDR_CURRENT_DAY = 0
    ∧ readEEPROM (saveToEEPROM scenarioB 60 (clockAt 6 3)).eeprom ADDR_LAST_DAY = 6 := by
  have h := C2_boundary_liters_credited_to_ended_day scenarioB 60 (clockAt 6 3)
    (by decide) (by decide) (by decide)
  have hld : readEEPROM scenarioB.eeprom ADDR_LAST_DAY = 5 := by decide
  have hcd : readUnsignedLong scenarioB.eeprom ADDR_CURRENT_DAY = 120 := by decide
  rw [hld, hcd, scenarioB_liters] at h
  exact ⟨by decide, hld, hcd, by norm_num [scenarioB], by decide, h.1, h.2.2.1, h.2.2.2⟩

/-- C2 fails as stated: on an erased EEPROM (`lastDay = 255`, `currentDayLiters = 2 ^ 32 - 1`)
a cycle that commits one liter on clock day 1 leaves 0 in slot `(255 - 1) mod 30`, not the
pre-commit value plus the committed liter. -/
theorem C2_counterexample :
    60 ≤ subU32 (wrapU32 60) erasedExample.lastSave
    ∧ readEEPROM erasedExample.eeprom ADDR_LAST_DAY = 255
    ∧ readUnsignedLong erasedExample.eeprom ADDR_CURRENT_DAY = 4294967295
    ∧ (clockAt 1 1).day.val = 1
    ∧ f32toUnsignedLong erasedExample.sessionVolume = 1
    ∧ dailyLogSlot (saveToEEPROM erasedExample 60 (clockAt 1 1)).eeprom ((255 - 1) % 30) = 0
    ∧ ¬ (dailyLogSlot (saveToEEPROM erasedExample 60 (clockAt 1 1)).eeprom ((255 - 1) % 30)
          = 4294967295 + 1) := by
  have hdue : 60 ≤ subU32 (wrapU32 60) erasedExample.lastSave := by decide
  have hne : (clockAt 1 1).day.val ≠ readEEPROM erasedExample.eeprom ADDR_LAST_DAY := by decide
  have hpos : 1 ≤ readEEPROM erasedExample.eeprom ADDR_LAST_DAY := by decide
  have hslot := save_day_rollover_slot erasedExample 60 (clockAt 1 1) hdue hpos hne
  have hld : readEEPROM erasedExample.eeprom ADDR_LAST_DAY = 255 := by decide
  have hcd : readUnsignedLong erasedExample.eeprom ADDR_CURRENT_DAY = 4294967295 := by decide
  rw [hld, hcd, erasedExample_liters] at hslot
  have hslot' : dailyLogSlot (saveToEEPROM erasedExample 60 (clockAt 1 1)).eeprom
      ((255 - 1) % 30) = 0 := by
    rw [hslot]
    decide
  refine ⟨hdue, hld, hcd, by decide, erasedExample_liters, hslot', ?_⟩
  rw [hslot']
  decide

/-- C3 (amended): in every due commit cycle, whatever the day comparison gives: if the clock
month differs from the stored `lastMonth`, afterwards `previousMonthLiters` is
`currentMonthLiters` with this cycle's liters added, `currentMonthLiters` is 0 and `lastMonth`
is the clock month; if the clock month equals `lastMonth`, `previousMonthLiters` and
`lastMonth` are unchanged and `currentMonthLiters` has grown by the committed liters modulo
`2 ^ 32` (by exactly the committed liters when the sum is below `2 ^ 32`); when day and month
both differ, both rollovers take effect in the same cycle. -/
theorem C3_month_rollover_independent_of_day (st : State) (currentTime : Nat) (now : DateTime)
    (hdue : 60 ≤ subU32 (wrapU32 currentTime) st.lastSave) :
    (now.month.val ≠ readEEPROM st.eeprom ADDR_LAST_MONTH →
      readUnsignedLong (saveToEEPROM st currentTime now).eeprom ADDR_PREVIOUS_MONTH
        = (readUnsignedLong st.eeprom ADDR_CURRENT_MONTH + f32toUnsignedLong st.sessionVolume)
            % 4294967296
      ∧ readUnsignedLong (saveToEEPROM st currentTime now).eeprom ADDR_CURRENT_MONTH = 0
      ∧ readEEPROM (saveToEEPROM st currentTime now).eeprom ADDR_LAST_MONTH = now.month.val)
    ∧ (now.month.val = readEEPROM st.eeprom ADDR_LAST_MONTH →
      readUnsignedLong (saveToEEPROM st currentTime now).eeprom ADDR_PREVIOUS_MONTH
        = readUnsignedLong st.eeprom ADDR_PREVIOUS_MONTH
      ∧ readEEPROM (saveToEEPROM st currentTime now).eeprom ADDR_LAST_MONTH
        = readEEPROM st.eeprom ADDR_LAST_MONTH
      ∧ readUnsignedLong (saveToEEPROM st currentTime now).eeprom ADDR_CURRENT_MONTH
        = (readUnsignedLong st.eeprom ADDR_CURRENT_MONTH + f32toUnsignedLong st.sessionVolume)
            % 4294967296
      ∧ (readUnsignedLong st.eeprom ADDR_CURRENT_MONTH + f32toUnsignedLong st.sessionVolume
            < 4294967296 →
          readUnsignedLong (saveToEEPROM st currentTime now).eeprom ADDR_CURRENT_MONTH
            = readUnsignedLong st.eeprom ADDR_CURRENT_MONTH
              + f32toUnsignedLong st.sessionVolume))
    ∧ (now.day.val ≠ readEEPROM st.eeprom ADDR_LAST_DAY →
        now.month.val ≠ readEEPROM st.eeprom ADDR_LAST_MONTH →
        readUnsignedLong (saveToEEPROM st currentTime now).eeprom ADDR_CURRENT_DAY = 0
        ∧ readEEPROM (saveToEEPROM st currentTime now).eeprom ADDR_LAST_DAY = now.day.val
        ∧ readUnsignedLong (saveToEEPROM st currentTime now).eeprom ADDR_CURRENT_MONTH = 0
        ∧ readEEPROM (saveToEEPROM st currentTime now).eeprom ADDR_LAST_MONTH
            = now.month.val) := by
  refine ⟨?_, ?_, ?_⟩
  · intro hm
    exact save_month_rollover st currentTime now hdue hm
  · intro hm
    have h := save_month_same st currentTime now hdue hm
    refine ⟨h.1, h.2.2, h.2.1, ?_⟩
    intro hlt
    rw [h.2.1]
    exact Nat.mod_eq_of_lt hlt
  · intro hd hm
    have h1 := save_day_rollover st currentTime now hdue hd
    have h2 := save_month_rollover st currentTime now hdue hm
    exact ⟨h1.1, h1.2.1, h2.2.1, h2.2.2⟩

/-- C3, witness: from last seen date 5/3 a cycle on 6/4 rolls both day and month over, a
cycle on 6/3 only the day, and then the month counter grows by the 2 committed liters. -/
theorem C3_witness :
    60 ≤ subU32 (wrapU32 60) rolloverExample.lastSave
    ∧ (clockAt 6 4).month.val ≠ readEEPROM rolloverExample.eeprom ADDR_LAST_MONTH
    ∧ (clockAt 6 4).day.val ≠ readEEPROM rolloverExample.eeprom ADDR_LAST_DAY
    ∧ readUnsignedLong (saveToEEPROM rolloverExample 60 (clockAt 6 4)).eeprom ADDR_PREVIOUS_MONTH
        = (readUnsignedLong rolloverExample.eeprom ADDR_CURRENT_MONTH
            + f32toUnsignedLong rolloverExample.sessionVolume) % 4294967296
    ∧ readUnsignedLong (saveToEEPROM rolloverExample 60 (clockAt 6 4)).eeprom ADDR_CURRENT_DAY = 0
    ∧ readUnsignedLong (saveToEEPROM rolloverExample 60 (clockAt 6 4)).eeprom ADDR_CURRENT_MONTH
        = 0
    ∧ readUnsignedLong (saveToEEPROM rolloverExample 60 (clockAt 6 3)).eeprom ADDR_CURRENT_MONTH
        = readUnsignedLong rolloverExample.eeprom ADDR_CURRENT_MONTH
          + f32toUnsignedLong rolloverExample.sessionVolume :=
  ⟨by decide, by decide, by decide,
    ((C3_month_rollover_independent_of_day rolloverExample 60 (clockAt 6 4) (by decide)).1
      (by decide)).1,
    ((C3_month_rollover_independent_of_day rolloverExample 60 (clockAt 6 4) (by decide)).2.2
      (by decide) (by decide)).1,
    ((C3_month_rollover_independent_of_day rolloverExample 60 (clockAt 6 4) (by decide)).2.2
      (by decide) (by decide)).2.2.1,
    ((C3_month_rollover_independent_of_day rolloverExample 60 (clockAt 6 3) (by decide)).2.1
      (by decide)).2.2.2 (by rw [rolloverExample_liters]; decide)⟩

/-- C3 fails as stated: with `currentMonthLiters = 2 ^ 32 - 1` and an unchanged month, a
cycle that commits one liter leaves `currentMonthLiters = 0`; it has not grown by the
committed liter. -/
theorem C3_counterexample :
    60 ≤ subU32 (wrapU32 60) monthWrapExample.lastSave
    ∧ (clockAt 5 3).month.val = readEEPROM monthWrapExample.eeprom ADDR_LAST_MONTH
    ∧ readUnsignedLong monthWrapExample.eeprom ADDR_CURRENT_MONTH = 4294967295
    ∧ f32toUnsignedLong monthWrapExample.sessionVolume = 1
    ∧ readUnsignedLong (saveToEEPROM monthWrapExample 60 (clockAt 5 3)).eeprom ADDR_CURRENT_MONTH
        = 0
    ∧ ¬ (readUnsignedLong (saveToEEPROM monthWrapExample 60 (clockAt 5 3)).eeprom
            ADDR_CURRENT_MONTH
          = readUnsignedLong monthWrapExample.eeprom ADDR_CURRENT_MONTH
            + f32toUnsignedLong monthWrapExample.sessionVolume) := by
  have hdue : 60 ≤ subU32 (wrapU32 60) monthWrapExample.lastSave := by decide
  have hm : (clockAt 5 3).month.val = readEEPROM monthWrapExample.eeprom ADDR_LAST_MONTH := by
    decide
  have hcm : readUnsignedLong monthWrapExample.eeprom ADDR_CURRENT_MONTH = 4294967295 := by
    decide
  have h := (save_month_same monthWrapExample 60 (clockAt 5 3) hdue hm).2.1
  rw [hcm, monthWrapExample_liters] at h
  have h0 : readUnsignedLong (saveToEEPROM monthWrapExample 60 (clockAt 5 3)).eeprom
      ADDR_CURRENT_MONTH = 0 := by
    rw [h]
    decide
  refine ⟨hdue, hm, hcm, monthWrapExample_liters, h0, ?_⟩
  rw [h0, hcm, monthWrapExample_liters]
  decide

/-- C4 (amended): in every sequence of `saveToEEPROM` cycles (arbitrary session volumes and
clock dates, no reset in between) a due cycle turns the stored `totalLiters` into the old
value plus the committed liters modulo `2 ^ 32` and a cycle that is not due leaves it
unchanged; so `totalLiters` after a cycle is at least its value before that cycle whenever
the old value plus the committed liters is below `2 ^ 32`, and over a sequence whose liters
keep the total below `2 ^ 32` the final `totalLiters` is at least the initial one. -/
theorem C4_total_monotone_without_wrap (st : State) (cycles : List CommitCycle) :
    (∀ (pre : List CommitCycle) (c : CommitCycle) (post : List CommitCycle),
      cycles = pre ++ c :: post →
      storedTotal (runCommits st (pre ++ [c]))
        = if 60 ≤ subU32 (wrapU32 c.currentTime) (runCommits st pre).lastSave
          then (storedTotal (runCommits st pre) + cycleLiters c) % 4294967296
          else storedTotal (runCommits st pre))
    ∧ (∀ (pre : List CommitCycle) (c : CommitCycle) (post : List CommitCycle),
      cycles = pre ++ c :: post →
      storedTotal (runCommits st pre) + cycleLiters c < 4294967296 →
      storedTotal (runCommits st pre) ≤ storedTotal (runCommits st (pre ++ [c])))
    ∧ (storedTotal st + (cycles.map cycleLiters).sum < 4294967296 →
      storedTotal st ≤ storedTotal (runCommits st cycles)) := by
  refine ⟨?_, ?_, ?_⟩
  · intro pre c post _
    rw [runCommits_append]
    simp only [runCommits]
    rw [storedTotal_save]
    rfl
  · intro pre c post _ h
    rw [runCommits_append]
    simp only [runCommits]
    exact (storedTotal_cycle_bounds (runCommits st pre) c h).1
  · intro h
    exact (storedTotal_run_bounds cycles st h).1

/-- C4, witness: two cycles, one minute apart, on a ledger with total 1000. -/
theorem C4_witness :
    twoCycles = [{ sessionVolume := 5 / 2, currentTime := 60, now := clockAt 5 3 }]
        ++ { sessionVolume := 7 / 4, currentTime := 120, now := clockAt 6 3 } :: []
    ∧ storedTotal (runCommits rolloverExample
          [{ sessionVolume := 5 / 2, currentTime := 60, now := clockAt 5 3 }])
        + cycleLiters { sessionVolume := 7 / 4, currentTime := 120, now := clockAt 6 3 }
        < 4294967296
    ∧ storedTotal (runCommits rolloverExample
          [{ sessionVolume := 5 / 2, currentTime := 60, now := clockAt 5 3 }])
        ≤ storedTotal (runCommits rolloverExample
          ([{ sessionVolume := 5 / 2, currentTime := 60, now := clockAt 5 3 }]
            ++ [{ sessionVolume := 7 / 4, currentTime := 120, now := clockAt 6 3 }]))
    ∧ storedTotal rolloverExample + (twoCycles.map cycleLiters).sum < 4294967296
    ∧ storedTotal rolloverExample ≤ storedTotal (runCommits rolloverExample twoCycles) :=
  ⟨rfl, by rw [twoCycles_first_total, twoCycles_second_liters]; decide,
    (C4_total_monotone_without_wrap rolloverExample twoCycles).2.1 _ _ [] rfl
      (by rw [twoCycles_first_total, twoCycles_second_liters]; decide),
    by rw [twoCycles_liters]; decide,
    (C4_total_monotone_without_wrap rolloverExample twoCycles).2.2
      (by rw [twoCycles_liters]; decide)⟩

/-- C4 fails as stated: on an erased EEPROM (`totalLiters = 2 ^ 32 - 1`) one cycle that
commits a single liter leaves `totalLiters = 0`, below its value before the cycle. -/
theorem C4_counterexample :
    60 ≤ subU32 (wrapU32 60) erasedExample.lastSave
    ∧ 0 ≤ erasedExample.sessionVolume
    ∧ storedTotal erasedExample = 4294967295
    ∧ storedTotal (saveToEEPROM erasedExample 60 (clockAt 1 1)) = 0
    ∧ ¬ (storedTotal erasedExample ≤ storedTotal (saveToEEPROM erasedExample 60 (clockAt 1 1))) := by
  have hdue : 60 ≤ subU32 (wrapU32 60) erasedExample.lastSave := by decide
  have ht : storedTotal erasedExample = 4294967295 := by decide
  have h := storedTotal_save erasedExample 60 (clockAt 1 1)
  rw [if_pos hdue, ht, erasedExample_liters] at h
  have h0 : storedTotal (saveToEEPROM erasedExample 60 (clockAt 1 1)) = 0 := by
    rw [h]
    decide
  refine ⟨hdue, by norm_num [erasedExample], ht, h0, ?_⟩
  rw [h0, ht]
  decide

/-- C10, the code at the failing input: with stored `lastDay = 0` and clock day 1, the
archive index `(lastDay - 1) % 30` stored in a `uint8_t` is 255, the four bytes of the archived
value are written at offsets 1050..1053, outside the daily log at offsets 30..149, and no
slot of the 30-slot log changes. -/
theorem C10_archive_write_leaves_log_when_lastDay_is_zero :
    60 ≤ subU32 (wrapU32 60) dayZeroExample.lastSave
    ∧ readEEPROM dayZeroExample.eeprom ADDR_LAST_DAY = 0
    ∧ (clockAt 1 3).day.val ≠ readEEPROM dayZeroExample.eeprom ADDR_LAST_DAY
    ∧ logIndex 0 = 255
    ∧ ADDR_DAILY_LOG_START + logIndex 0 * 4 = 1050
    ∧ (saveToEEPROM dayZeroExample 60 (clockAt 1 3)).eeprom.written
        = dayZeroExample.eeprom.written
          ++ [1050, 1051, 1052, 1053, 21, 0, 1, 2, 3, 4, 5, 6, 7, 12, 13, 14, 15]
    ∧ readUnsignedLong (saveToEEPROM dayZeroExample 60 (clockAt 1 3)).eeprom 1050 = 122
    ∧ (∀ i : Fin 30, dailyLogSlot (saveToEEPROM dayZeroExample 60 (clockAt 1 3)).eeprom i.val
        = dailyLogSlot dayZeroExample.eeprom i.val) := by
  have hdue : 60 ≤ subU32 (wrapU32 60) dayZeroExample.lastSave := by decide
  have hld : readEEPROM dayZeroExample.eeprom ADDR_LAST_DAY = 0 := by decide
  have hne : (clockAt 1 3).day.val ≠ readEEPROM dayZeroExample.eeprom ADDR_LAST_DAY := by decide
  have hcd : readUnsignedLong dayZeroExample.eeprom ADDR_CURRENT_DAY = 120 := by decide
  have hc : f32toUnsignedLong dayZeroExample.sessionVolume = 2 :=
    f32toUnsignedLong_eq _ 2 (by norm_num [dayZeroExample]) (by norm_num [dayZeroExample])
      (by norm_num)
  have hw := (save_day_rollover dayZeroExample 60 (clockAt 1 3) hdue hne).2.2
  rw [hld, hcd, hc] at hw
  refine ⟨hdue, hld, hne, by decide, by decide, by decide, ?_, ?_⟩
  · have e1 : (1050 : Nat) = ADDR_DAILY_LOG_START + logIndex 0 * 4 := by decide
    rw [e1, hw]
    decide
  · intro i
    apply save_log_other _ _ _ hdue _ i.isLt
    right
    rw [hld]
    have := i.isLt
    have h0 : logIndex 0 = 255 := by decide
    omega

/-! ## Factory reset: read-back after `initializeEEPROM` -/

theorem written_writeEEPROM (e : EEPROM) (a d : Nat) :
    (writeEEPROM e a d).written = e.written ++ [a % 65536] := rfl

theorem written_writeUnsignedLong (e : EEPROM) (a v : Nat) (h : a + 3 < 65536) :
    (writeUnsignedLong e a v).written = e.written ++ [a, a + 1, a + 2, a + 3] := by
  unfold writeUnsignedLong
  simp only [written_writeEEPROM, List.append_assoc, List.singleton_append, Nat.add_zero]
  rw [Nat.mod_eq_of_lt (by omega : a < 65536), Nat.mod_eq_of_lt (by omega : a + 1 < 65536),
    Nat.mod_eq_of_lt (by omega : a + 2 < 65536), Nat.mod_eq_of_lt h]
  rfl

theorem written_clearDailyLog (n : Nat) (e : EEPROM) (i : Nat) (h : 30 + 4 * (i + n) ≤ 65536) :
    (clearDailyLog e i n).written
      = e.written ++ (List.range (4 * n)).map (· + (30 + 4 * i)) := by
  induction n generalizing e i with
  | zero => simp [clearDailyLog]
  | succ n ih =>
    simp only [clearDailyLog]
    rw [ih _ _ (by omega), written_writeUnsignedLong _ _ _ (by unfold ADDR_DAILY_LOG_START; omega)]
    have h4 : 4 * (n + 1) = 4 + 4 * n := by ring
    rw [h4, List.range_add, List.map_append, List.map_map, List.append_assoc]
    congr 1
    congr 1
    · simp [List.range_succ, ADDR_DAILY_LOG_START]
      omega
    · apply List.map_congr_left
      intro a _
      simp only [Function.comp]
      ring

theorem readEEPROM_clearDailyLog_ne (n : Nat) (e : EEPROM) (i b : Nat)
    (h : 30 + 4 * (i + n) ≤ 65536)
    (hb : b % 65536 < 30 + 4 * i ∨ 30 + 4 * (i + n) ≤ b % 65536) :
    readEEPROM (clearDailyLog e i n) b = readEEPROM e b := by
  induction n generalizing e i with
  | zero => simp [clearDailyLog]
  | succ n ih =>
    simp only [clearDailyLog]
    rw [ih _ _ (by omega) (by omega)]
    apply readEEPROM_writeUnsignedLong_ne'
    · unfold ADDR_DAILY_LOG_START; omega
    · unfold ADDR_DAILY_LOG_START; omega

theorem readUnsignedLong_clearDailyLog_ne (n : Nat) (e : EEPROM) (i a : Nat)
    (h : 30 + 4 * (i + n) ≤ 65536) (ha : a + 3 < 65536)
    (hd : a + 3 < 30 + 4 * i ∨ 30 + 4 * (i + n) ≤ a) :
    readUnsignedLong (clearDailyLog e i n) a = readUnsignedLong e a := by
  unfold readUnsignedLong
  rw [readEEPROM_clearDailyLog_ne n e i _ h (by omega),
    readEEPROM_clearDailyLog_ne n e i _ h (by omega),
    readEEPROM_clearDailyLog_ne n e i _ h (by omega),
    readEEPROM_clearDailyLog_ne n e i _ h (by omega)]

theorem dailyLogSlot_clearDailyLog (n : Nat) (e : EEPROM) (i j : Nat)
    (h : 30 + 4 * (i + n) ≤ 65536) (hj : i ≤ j) (hj' : j < i + n) :
    dailyLogSlot (clearDailyLog e i n) j = 0 := by
  induction n generalizing e i with
  | zero => omega
  | succ n ih =>
    simp only [clearDailyLog]
    by_cases hij : j = i
    · subst hij
      unfold dailyLogSlot
      rw [readUnsignedLong_clearDailyLog_ne n _ (j + 1) _ (by omega)
        (by unfold ADDR_DAILY_LOG_START; omega) (by unfold ADDR_DAILY_LOG_START; omega),
        readUnsignedLong_writeUnsignedLong_same _ _ _ (by unfold ADDR_DAILY_LOG_START; omega)]
      rfl
    · exact ih _ _ (by omega) (by omega) (by omega)

theorem f32toBits_calibration : f32toBits PULSES_PER_LITER = 1138819072 := by
  unfold f32toBits PULSES_PER_LITER
  have hlog : Int.log 2 |(450 : ℚ)| = 8 :=
    intLog_eq 450 8 (by norm_num [abs_of_pos]) (by norm_num [abs_of_pos])
  simp only [hlog]
  have hfl : ⌊|(450 : ℚ)| * 2 ^ ((23 : ℤ) - 8)⌋ = 14745600 := by
    rw [Int.floor_eq_iff]
    norm_num [abs_of_pos]
  rw [hfl]
  norm_num
  decide

theorem defaultCost_value : DEFAULT_COST_PER_LITER = 13421773 / 268435456 := by
  unfold DEFAULT_COST_PER_LITER
  rw [f32round_eval (1 / 20) (-5) 13421773 (by norm_num [abs_of_pos]) (by norm_num [abs_of_pos])
    (roundHalfEven_eq_of_abs_lt _ _ (by norm_num [abs_lt]))]
  norm_num

theorem f32toBits_defaultCost : f32toBits DEFAULT_COST_PER_LITER = 1028443341 := by
  rw [defaultCost_value]
  unfold f32toBits
  have hlog : Int.log 2 |(13421773 / 268435456 : ℚ)| = -5 :=
    intLog_eq _ (-5) (by norm_num [abs_of_pos]) (by norm_num [abs_of_pos])
  simp only [hlog]
  have hfl : ⌊|(13421773 / 268435456 : ℚ)| * 2 ^ ((23 : ℤ) - (-5))⌋ = 13421773 := by
    rw [Int.floor_eq_iff]
    norm_num [abs_of_pos]
  rw [hfl]
  norm_num
  decide

theorem f32ofBits_calibration : f32ofBits 1138819072 = some PULSES_PER_LITER := by
  unfold f32ofBits PULSES_PER_LITER
  norm_num

theorem f32ofBits_defaultCost : f32ofBits 1028443341 = some DEFAULT_COST_PER_LITER := by
  rw [defaultCost_value]
  unfold f32ofBits
  norm_num

set_option maxRecDepth 100000 in
theorem initializeWriteOrder_nodup : initializeWriteOrder.Nodup := by decide

theorem written_initializeStore (e : EEPROM) (now : DateTime) :
    (initializeStore e now).written = e.written ++ initializeWriteOrder := by
  unfold initializeStore writeFloat
  simp only [ADDR_TOTAL_LITERS, ADDR_CURRENT_MONTH, ADDR_PREVIOUS_MONTH, ADDR_CURRENT_DAY,
    ADDR_CALIBRATION, ADDR_COST_PER_LITER, ADDR_LAST_MONTH, ADDR_LAST_DAY]
  rw [written_clearDailyLog 30 _ 0 (by norm_num), written_writeEEPROM, written_writeEEPROM,
    written_writeUnsignedLong _ _ _ (by norm_num), written_writeUnsignedLong _ _ _ (by norm_num),
    written_writeUnsignedLong _ _ _ (by norm_num), written_writeUnsignedLong _ _ _ (by norm_num),
    written_writeUnsignedLong _ _ _ (by norm_num), written_writeUnsignedLong _ _ _ (by norm_num)]
  simp only [List.append_assoc]
  congr 1

/-- C5: for every prior store content and every clock reading, after `initializeEEPROM` the
four accumulators read back as 0, every daily-log slot and every byte at offsets 30..149 reads
back as 0, the calibration reads back as 450.0, the cost per liter reads back as the default
`0.05f`, `lastMonth` and `lastDay` read back as the clock's month and day, and the sequence
writes each byte address at most once, so no write overwrites a byte of an earlier field. -/
theorem C5_factory_reset_zeroes_ledger (st : State) (now : DateTime) :
    readUnsignedLong (initializeEEPROM st now).eeprom ADDR_TOTAL_LITERS = 0
    ∧ readUnsignedLong (initializeEEPROM st now).eeprom ADDR_CURRENT_MONTH = 0
    ∧ readUnsignedLong (initializeEEPROM st now).eeprom ADDR_PREVIOUS_MONTH = 0
    ∧ readUnsignedLong (initializeEEPROM st now).eeprom ADDR_CURRENT_DAY = 0
    ∧ (∀ i : Fin 30, dailyLogSlot (initializeEEPROM st now).eeprom i.val = 0)
    ∧ (∀ a : Fin 120, readEEPROM (initializeEEPROM st now).eeprom (30 + a.val) = 0)
    ∧ readFloat (initializeEEPROM st now).eeprom ADDR_CALIBRATION = some 450
    ∧ readFloat (initializeEEPROM st now).eeprom ADDR_COST_PER_LITER
        = some DEFAULT_COST_PER_LITER
    ∧ readEEPROM (initializeEEPROM st now).eeprom ADDR_LAST_MONTH = now.month.val
    ∧ readEEPROM (initializeEEPROM st now).eeprom ADDR_LAST_DAY = now.day.val
    ∧ (initializeEEPROM st now).eeprom.written = st.eeprom.written ++ initializeWriteOrder
    ∧ initializeWriteOrder.Nodup := by
  have hmon := now.month.isLt
  have hday := now.day.isLt
  have hslot : ∀ i : Fin 30, dailyLogSlot (initializeEEPROM st now).eeprom i.val = 0 := by
    intro i
    have hi := i.isLt
    exact dailyLogSlot_clearDailyLog 30 _ 0 i.val (by norm_num) (by omega) (by omega)
  refine ⟨?_, ?_, ?_, ?_, hslot, ?_, ?_, ?_, ?_, ?_, written_initializeStore st.eeprom now,
    initializeWriteOrder_nodup⟩
  · show readUnsignedLong (initializeStore st.eeprom now) ADDR_TOTAL_LITERS = 0
    unfold initializeStore writeFloat
    simp only [ADDR_TOTAL_LITERS, ADDR_CURRENT_MONTH, ADDR_PREVIOUS_MONTH, ADDR_CURRENT_DAY,
      ADDR_CALIBRATION, ADDR_COST_PER_LITER, ADDR_LAST_MONTH, ADDR_LAST_DAY]
    rw [readUnsignedLong_clearDailyLog_ne 30 _ 0 _ (by norm_num) (by norm_num) (by norm_num)]
    simp (disch := omega) [readUnsignedLong_writeUnsignedLong_ne,
      readUnsignedLong_writeEEPROM_ne, readUnsignedLong_writeUnsignedLong_same, wrapU32]
  · show readUnsignedLong (initializeStore st.eeprom now) ADDR_CURRENT_MONTH = 0
    unfold initializeStore writeFloat
    simp only [ADDR_TOTAL_LITERS, ADDR_CURRENT_MONTH, ADDR_PREVIOUS_MONTH, ADDR_CURRENT_DAY,
      ADDR_CALIBRATION, ADDR_COST_PER_LITER, ADDR_LAST_MONTH, ADDR_LAST_DAY]
    rw [readUnsignedLong_clearDailyLog_ne 30 _ 0 _ (by norm_num) (by norm_num) (by norm_num)]
    simp (disch := omega) [readUnsignedLong_writeUnsignedLong_ne,
      readUnsignedLong_writeEEPROM_ne, readUnsignedLong_writeUnsignedLong_same, wrapU32]
  · show readUnsignedLong (initializeStore st.eeprom now) ADDR_PREVIOUS_MONTH = 0
    unfold initializeStore writeFloat
    simp only [ADDR_TOTAL_LITERS, ADDR_CURRENT_MONTH, ADDR_PREVIOUS_MONTH, ADDR_CURRENT_DAY,
      ADDR_CALIBRATION, ADDR_COST_PER_LITER, ADDR_LAST_MONTH, ADDR_LAST_DAY]
    rw [readUnsignedLong_clearDailyLog_ne 30 _ 0 _ (by norm_num) (by norm_num) (by norm_num)]
    simp (disch := omega) [readUnsignedLong_writeUnsignedLong_ne,
      readUnsignedLong_writeEEPROM_ne, readUnsignedLong_writeUnsignedLong_same, wrapU32]
  · show readUnsignedLong (initializeStore st.eeprom now) ADDR_CURRENT_DAY = 0
    unfold initializeStore writeFloat
    simp only [ADDR_TOTAL_LITERS, ADDR_CURRENT_MONTH, ADDR_PREVIOUS_MONTH, ADDR_CURRENT_DAY,
      ADDR_CALIBRATION, ADDR_COST_PER_LITER, ADDR_LAST_MONTH, ADDR_LAST_DAY]
    rw [readUnsignedLong_clearDailyLog_ne 30 _ 0 _ (by norm_num) (by norm_num) (by norm_num)]
    simp (disch := omega) [readUnsignedLong_writeUnsignedLong_ne,
      readUnsignedLong_writeEEPROM_ne, readUnsignedLong_writeUnsignedLong_same, wrapU32]
  · intro a
    have ha := a.isLt
    have h := hslot ⟨a.val / 4, by omega⟩
    unfold dailyLogSlot readUnsignedLong ADDR_DAILY_LOG_START at h
    simp only at h
    have h0 := readEEPROM_lt (initializeEEPROM st now).eeprom (30 + a.val / 4 * 4 + 0)
    have hcases : a.val % 4 = 0 ∨ a.val % 4 = 1 ∨ a.val % 4 = 2 ∨ a.val % 4 = 3 := by omega
    rcases hcases with hc | hc | hc | hc
    · have e1 : 30 + a.val = 30 + a.val / 4 * 4 + 0 := by omega
      rw [e1]; omega
    · have e1 : 30 + a.val = 30 + a.val / 4 * 4 + 1 := by omega
      rw [e1]; omega
    · have e1 : 30 + a.val = 30 + a.val / 4 * 4 + 2 := by omega
      rw [e1]; omega
    · have e1 : 30 + a.val = 30 + a.val / 4 * 4 + 3 := by omega
      rw [e1]; omega
  · show readFloat (initializeStore st.eeprom now) ADDR_CALIBRATION = some 450
    unfold readFloat initializeStore writeFloat
    simp only [ADDR_TOTAL_LITERS, ADDR_CURRENT_MONTH, ADDR_PREVIOUS_MONTH, ADDR_CURRENT_DAY,
      ADDR_CALIBRATION, ADDR_COST_PER_LITER, ADDR_LAST_MONTH, ADDR_LAST_DAY]
    rw [readUnsignedLong_clearDailyLog_ne 30 _ 0 _ (by norm_num) (by norm_num) (by norm_num)]
    simp (disch := omega) only [readUnsignedLong_writeUnsignedLong_ne,
      readUnsignedLong_writeEEPROM_ne, readUnsignedLong_writeUnsignedLong_same]
    rw [f32toBits_calibration]
    exact f32ofBits_calibration
  · show readFloat (initializeStore st.eeprom now) ADDR_COST_PER_LITER = _
    unfold readFloat initializeStore writeFloat
    simp only [ADDR_TOTAL_LITERS, ADDR_CURRENT_MONTH, ADDR_PREVIOUS_MONTH, ADDR_CURRENT_DAY,
      ADDR_CALIBRATION, ADDR_COST_PER_LITER, ADDR_LAST_MONTH, ADDR_LAST_DAY]
    rw [readUnsignedLong_clearDailyLog_ne 30 _ 0 _ (by norm_num) (by norm_num) (by norm_num)]
    simp (disch := omega) only [readUnsignedLong_writeUnsignedLong_ne,
      readUnsignedLong_writeEEPROM_ne, readUnsignedLong_writeUnsignedLong_same]
    rw [f32toBits_defaultCost]
    exact f32ofBits_defaultCost
  · show readEEPROM (initializeStore st.eeprom now) ADDR_LAST_MONTH = _
    unfold initializeStore writeFloat
    simp only [ADDR_TOTAL_LITERS, ADDR_CURRENT_MONTH, ADDR_PREVIOUS_MONTH, ADDR_CURRENT_DAY,
      ADDR_CALIBRATION, ADDR_COST_PER_LITER, ADDR_LAST_MONTH, ADDR_LAST_DAY]
    rw [readEEPROM_clearDailyLog_ne 30 _ 0 _ (by norm_num) (by norm_num)]
    simp (disch := omega) [readEEPROM_writeEEPROM_ne, readEEPROM_writeEEPROM_same,
      Nat.mod_eq_of_lt hmon]
  · show readEEPROM (initializeStore st.eeprom now) ADDR_LAST_DAY = _
    unfold initializeStore writeFloat
    simp only [ADDR_TOTAL_LITERS, ADDR_CURRENT_MONTH, ADDR_PREVIOUS_MONTH, ADDR_CURRENT_DAY,
      ADDR_CALIBRATION, ADDR_COST_PER_LITER, ADDR_LAST_MONTH, ADDR_LAST_DAY]
    rw [readEEPROM_clearDailyLog_ne 30 _ 0 _ (by norm_num) (by norm_num)]
    simp (disch := omega) [readEEPROM_writeEEPROM_same, Nat.mod_eq_of_lt hday]

/-! ## Buttons: mode cycling and long press -/

theorem DisplayMode.toNat_lt (m : DisplayMode) : m.toNat < 9 := by
  cases m <;> decide

theorem DisplayMode.toNat_ofValue (n : Nat) (h : n < 9) : (DisplayMode.ofValue n).toNat = n := by
  interval_cases n <;> rfl

theorem handleButton2_btn1 (st : State) (b : Bool) (t : Nat) :
    (handleButton2 st b t).currentMode = st.currentMode
    ∧ (handleButton2 st b t).btn1WasPressed = st.btn1WasPressed
    ∧ (handleButton2 st b t).lastBtn1 = st.lastBtn1 := by
  unfold handleButton2
  split_ifs <;> exact ⟨rfl, rfl, rfl⟩

theorem handleButton3_btn1 (st : State) (b : Bool) (t : Nat) :
    (handleButton3 st b t).currentMode = st.currentMode
    ∧ (handleButton3 st b t).btn1WasPressed = st.btn1WasPressed
    ∧ (handleButton3 st b t).lastBtn1 = st.lastBtn1 := by
  unfold handleButton3
  split_ifs <;> exact ⟨rfl, rfl, rfl⟩

theorem handleButtons_btn1 (st : State) (b1 b2 b3 : Bool) (t : Nat) :
    (handleButtons st b1 b2 b3 t).currentMode
        = (if acceptsBtn1 st b1 t = true
           then DisplayMode.ofValue ((st.currentMode.toNat + 1) % MODE_COUNT)
           else st.currentMode)
    ∧ (handleButtons st b1 b2 b3 t).btn1WasPressed
        = (if acceptsBtn1 st b1 t = true then true
           else if b1 = true then false else st.btn1WasPressed)
    ∧ (handleButtons st b1 b2 b3 t).lastBtn1
        = (if acceptsBtn1 st b1 t = true then wrapU32 t else st.lastBtn1) := by
  unfold handleButtons
  simp only []
  obtain ⟨a1, a2, a3⟩ := handleButton3_btn1
    (handleButton2 (handleButton1 st b1 (wrapU32 t)) b2 (wrapU32 t)) b3 (wrapU32 t)
  obtain ⟨c1, c2, c3⟩ := handleButton2_btn1 (handleButton1 st b1 (wrapU32 t)) b2 (wrapU32 t)
  rw [a1, a2, a3, c1, c2, c3]
  unfold handleButton1 acceptsBtn1
  split_ifs <;> simp_all

theorem acceptedPresses_latched (polls : List ButtonPoll) (st : State)
    (hw : st.btn1WasPressed = true) (hheld : ∀ p ∈ polls, p.button1 = false) :
    acceptedPresses st polls = 0 := by
  induction polls generalizing st with
  | nil => rfl
  | cons p ps ih =>
    have hp : p.button1 = false := hheld p (List.mem_cons_self _ _)
    have hacc : acceptsBtn1 st p.button1 p.currentTime = false := by
      unfold acceptsBtn1
      simp [hw]
    obtain ⟨-, h2, -⟩ := handleButtons_btn1 st p.button1 p.button2 p.button3 p.currentTime
    simp only [hacc, Bool.false_eq_true, if_false] at h2
    rw [if_neg (by rw [hp]; decide)] at h2
    simp only [acceptedPresses, hacc, Bool.false_eq_true, if_false, Nat.zero_add]
    exact ih _ (by rw [h2, hw]) (fun q hq => hheld q (List.mem_cons_of_mem _ hq))

theorem acceptedPresses_hold (polls : List ButtonPoll) (st : State)
    (hheld : ∀ p ∈ polls, p.button1 = false) : acceptedPresses st polls ≤ 1 := by
  induction polls generalizing st with
  | nil => simp [acceptedPresses]
  | cons p ps ih =>
    obtain ⟨-, h2, -⟩ := handleButtons_btn1 st p.button1 p.button2 p.button3 p.currentTime
    simp only [acceptedPresses]
    by_cases hacc : acceptsBtn1 st p.button1 p.currentTime = true
    · simp only [hacc, if_true] at h2 ⊢
      rw [acceptedPresses_latched ps _ h2 (fun q hq => hheld q (List.mem_cons_of_mem _ hq))]
    · simp only [hacc, Bool.false_eq_true, if_false, Nat.zero_add]
      exact ih _ (fun q hq => hheld q (List.mem_cons_of_mem _ hq))

theorem runButtons_mode (polls : List ButtonPoll) (st : State) :
    (runButtons st polls).currentMode.toNat
      = (st.currentMode.toNat + acceptedPresses st polls) % 9 := by
  induction polls generalizing st with
  | nil =>
    simp only [runButtons, acceptedPresses, Nat.add_zero]
    exact (Nat.mod_eq_of_lt (DisplayMode.toNat_lt _)).symm
  | cons p ps ih =>
    obtain ⟨h1, -, -⟩ := handleButtons_btn1 st p.button1 p.button2 p.button3 p.currentTime
    simp only [runButtons, acceptedPresses]
    rw [ih, h1]
    by_cases hacc : acceptsBtn1 st p.button1 p.currentTime = true
    · simp only [hacc, if_true]
      have hm : (DisplayMode.ofValue ((st.currentMode.toNat + 1) % MODE_COUNT)).toNat
          = (st.currentMode.toNat + 1) % 9 :=
        DisplayMode.toNat_ofValue _ (Nat.mod_lt _ (by decide))
      rw [hm]
      omega
    · simp only [hacc, Bool.false_eq_true, if_false, Nat.zero_add]

/-- C7: from every starting mode `k`, after a sequence of `handleButtons` polls of which `N`
accept a press of button 1, the display mode is `(k + N) mod 9`; a poll accepts exactly when
button 1 reads low, its pressed latch is clear and more than 200 ms have passed since the last
accepted press; a poll that does not accept leaves the mode unchanged; and a run of polls
during which the button stays low accepts at most once. -/
theorem C7_mode_button_cycles_modulo_nine (st : State) (polls : List ButtonPoll) :
    (runButtons st polls).currentMode.toNat
        = (st.currentMode.toNat + acceptedPresses st polls) % 9
    ∧ (∀ p : ButtonPoll,
        (acceptsBtn1 st p.button1 p.currentTime = true
          ↔ (p.button1 = false ∧ st.btn1WasPressed = false
              ∧ 200 < subU32 (wrapU32 p.currentTime) st.lastBtn1))
        ∧ (acceptsBtn1 st p.button1 p.currentTime = true →
            (handleButtons st p.button1 p.button2 p.button3 p.currentTime).currentMode.toNat
                = (st.currentMode.toNat + 1) % 9
            ∧ (handleButtons st p.button1 p.button2 p.button3 p.currentTime).lastBtn1
                = wrapU32 p.currentTime
            ∧ (handleButtons st p.button1 p.button2 p.button3 p.currentTime).btn1WasPressed
                = true)
        ∧ (acceptsBtn1 st p.button1 p.currentTime = false →
            (handleButtons st p.button1 p.button2 p.button3 p.currentTime).currentMode
                = st.currentMode
            ∧ (handleButtons st p.button1 p.button2 p.button3 p.currentTime).lastBtn1
                = st.lastBtn1))
    ∧ ((∀ p ∈ polls, p.button1 = false) → acceptedPresses st polls ≤ 1) := by
  refine ⟨runButtons_mode polls st, ?_, acceptedPresses_hold polls st⟩
  intro p
  obtain ⟨h1, h2, h3⟩ := handleButtons_btn1 st p.button1 p.button2 p.button3 p.currentTime
  refine ⟨?_, ?_, ?_⟩
  · unfold acceptsBtn1
    simp [and_assoc]
  · intro hacc
    simp only [hacc, if_true] at h1 h2 h3
    refine ⟨?_, h3, h2⟩
    rw [h1]
    exact DisplayMode.toNat_ofValue _ (Nat.mod_lt _ (by decide))
  · intro hacc
    simp only [hacc, Bool.false_eq_true, if_false] at h1 h3
    exact ⟨h1, h3⟩

/-- C7, witness: a four-poll hold is accepted once, and three presses move the mode by 3. -/
theorem C7_witness :
    (∀ p ∈ longHoldPolls, p.button1 = false)
    ∧ acceptedPresses (initialState (filledStore 0)) longHoldPolls ≤ 1
    ∧ acceptedPresses (initialState (filledStore 0)) threePresses = 3
    ∧ (runButtons (initialState (filledStore 0)) threePresses).currentMode.toNat
        = ((initialState (filledStore 0)).currentMode.toNat + 3) % 9 :=
  ⟨by decide,
    (C7_mode_button_cycles_modulo_nine (initialState (filledStore 0)) longHoldPolls).2.2
      (by decide),
    by decide,
    (C7_mode_button_cycles_modulo_nine (initialState (filledStore 0)) threePresses).1.trans
      (by decide)⟩

theorem update_not_due (st : State) (t : Nat)
    (h : subU32 (wrapU32 t) st.lastCheck < 1000) : updateFlowMeasurements st t = st := by
  unfold updateFlowMeasurements
  rw [if_neg (by omega)]

theorem update_due (st : State) (t : Nat) (h : 1000 ≤ subU32 (wrapU32 t) st.lastCheck) :
    updateFlowMeasurements st t =
      { st with
        pulseCount := 0
        flowRate := f32div (f32mul (f32mul (f32ofNat (wrapU32 st.pulseCount)) 60) 1000)
          (f32mul PULSES_PER_LITER (f32ofNat (subU32 (wrapU32 t) st.lastCheck)))
        sessionVolume :=
          f32add st.sessionVolume (f32div (f32ofNat (wrapU32 st.pulseCount)) PULSES_PER_LITER)
        lastCheck := wrapU32 t
        displayNeedsUpdate := true } := by
  unfold updateFlowMeasurements
  rw [if_pos h]

theorem subU32_lt (a b : Nat) : subU32 a b < 4294967296 := Nat.mod_lt _ (by norm_num)

/-- C8 (amended): when fewer than 1000 ms have elapsed since the last sample, a call of
`updateFlowMeasurements` changes nothing; otherwise, with pulse count `P` and window `W`, it
sets the flow rate to the single-precision evaluation of `(P * 60 * 1000) / (450 * W)`, which
is within a relative `2 ^ -21` of `P * 60000 / (450 * W)`, replaces the session volume `s` by
the single-precision sum of `s` and the single-precision quotient `P / 450`, which is within
a relative `2 ^ -22` of `s + P / 450`, resets the pulse counter to 0, sets the dirty flag and
records the sample time. -/
theorem C8_sampler_rate_and_volume (st : State) (currentTime : Nat) :
    (subU32 (wrapU32 currentTime) st.lastCheck < 1000 →
      updateFlowMeasurements st currentTime = st)
    ∧ (1000 ≤ subU32 (wrapU32 currentTime) st.lastCheck →
      (updateFlowMeasurements st currentTime).flowRate
          = f32div (f32mul (f32mul (f32ofNat (wrapU32 st.pulseCount)) 60) 1000)
              (f32mul PULSES_PER_LITER (f32ofNat (subU32 (wrapU32 currentTime) st.lastCheck)))
      ∧ |(updateFlowMeasurements st currentTime).flowRate
            - (wrapU32 st.pulseCount : ℚ) * 60000
                / (450 * (subU32 (wrapU32 currentTime) st.lastCheck : ℚ))|
          ≤ (wrapU32 st.pulseCount : ℚ) * 60000
                / (450 * (subU32 (wrapU32 currentTime) st.lastCheck : ℚ)) / 2 ^ 21
      ∧ (updateFlowMeasurements st currentTime).sessionVolume
          = f32add st.sessionVolume (f32div (f32ofNat (wrapU32 st.pulseCount)) PULSES_PER_LITER)
      ∧ (IsF32 st.sessionVolume → 0 ≤ st.sessionVolume →
          |(updateFlowMeasurements st currentTime).sessionVolume
              - (st.sessionVolume + (wrapU32 st.pulseCount : ℚ) / 450)|
            ≤ (st.sessionVolume + (wrapU32 st.pulseCount : ℚ) / 450) / 2 ^ 22)
      ∧ (updateFlowMeasurements st currentTime).pulseCount = 0
      ∧ (updateFlowMeasurements st currentTime).displayNeedsUpdate = true
      ∧ (updateFlowMeasurements st currentTime).lastCheck = wrapU32 currentTime) := by
  refine ⟨update_not_due st currentTime, ?_⟩
  intro h
  rw [update_due st currentTime h]
  refine ⟨rfl, ?_, rfl, ?_, rfl, rfl, rfl⟩
  · exact flowRate_accuracy _ _ h (subU32_lt _ _)
  · intro hs h0
    exact sessionVolume_accuracy _ _ hs h0

theorem scenarioA_rate :
    f32div (f32mul (f32mul (f32ofNat 450) 60) 1000) (f32mul PULSES_PER_LITER (f32ofNat 1000))
      = 60 := by
  have h1 : f32round (450 : ℚ) = 450 := by
    have := f32round_of_dyadic 450 0 (by norm_num) (by norm_num); simpa using this
  have h2 : f32round (27000 : ℚ) = 27000 := by
    have := f32round_of_dyadic 27000 0 (by norm_num) (by norm_num); simpa using this
  have h3 : f32round (27000000 : ℚ) = 27000000 := by
    have := f32round_of_dyadic 421875 6 (by norm_num) (by norm_num)
    norm_num at this
    exact this
  have h4 : f32round (1000 : ℚ) = 1000 := by
    have := f32round_of_dyadic 1000 0 (by norm_num) (by norm_num); simpa using this
  have h5 : f32round (450000 : ℚ) = 450000 := by
    have := f32round_of_dyadic 450000 0 (by norm_num) (by norm_num); simpa using this
  have h6 : f32round (60 : ℚ) = 60 := by
    have := f32round_of_dyadic 60 0 (by norm_num) (by norm_num); simpa using this
  unfold f32div f32mul f32ofNat PULSES_PER_LITER
  norm_num [h1, h2, h3, h4, h5, h6]

theorem scenarioA_volume :
    f32add 0 (f32div (f32ofNat 450) PULSES_PER_LITER) = 1 := by
  have h1 : f32round (450 : ℚ) = 450 := by
    have := f32round_of_dyadic 450 0 (by norm_num) (by norm_num); simpa using this
  have h2 : f32round (1 : ℚ) = 1 := by
    have := f32round_of_dyadic 1 0 (by norm_num) (by norm_num); simpa using this
  unfold f32add f32div f32ofNat PULSES_PER_LITER
  norm_num [h1, h2]

/-- C8, scenario A of the spec as a witness: 450 pulses in a 1000 ms window give a rate of
exactly 60.0 and a volume increment of exactly 1.0; at 999 ms the call changes nothing. -/
theorem C8_witness :
    1000 ≤ subU32 (wrapU32 1000) scenarioA.lastCheck
    ∧ wrapU32 scenarioA.pulseCount = 450
    ∧ subU32 (wrapU32 1000) scenarioA.lastCheck = 1000
    ∧ (updateFlowMeasurements scenarioA 1000).flowRate = 60
    ∧ (updateFlowMeasurements scenarioA 1000).sessionVolume = scenarioA.sessionVolume + 1
    ∧ (updateFlowMeasurements scenarioA 1000).pulseCount = 0
    ∧ (updateFlowMeasurements scenarioA 1000).displayNeedsUpdate = true
    ∧ updateFlowMeasurements scenarioA 999 = scenarioA := by
  have hP : wrapU32 scenarioA.pulseCount = 450 := by decide
  have hW : subU32 (wrapU32 1000) scenarioA.lastCheck = 1000 := by decide
  have h := (C8_sampler_rate_and_volume scenarioA 1000).2 (by decide)
  have hnd := (C8_sampler_rate_and_volume scenarioA 999).1 (by decide)
  rw [hP, hW] at h
  have hs : scenarioA.sessionVolume = 0 := rfl
  refine ⟨by decide, hP, hW, ?_, ?_, h.2.2.2.2.1, h.2.2.2.2.2.1, hnd⟩
  · rw [h.1]
    exact scenarioA_rate
  · rw [h.2.2.1, hs, scenarioA_volume]
    norm_num

theorem onePulse_rate :
    f32div (f32mul (f32mul (f32ofNat 1) 60) 1000) (f32mul PULSES_PER_LITER (f32ofNat 1000))
      = 8947849 / 67108864 := by
  have h1 : f32round (1 : ℚ) = 1 := by
    have := f32round_of_dyadic 1 0 (by norm_num) (by norm_num); simpa using this
  have h2 : f32round (60 : ℚ) = 60 := by
    have := f32round_of_dyadic 60 0 (by norm_num) (by norm_num); simpa using this
  have h3 : f32round (60000 : ℚ) = 60000 := by
    have := f32round_of_dyadic 60000 0 (by norm_num) (by norm_num); simpa using this
  have h4 : f32round (1000 : ℚ) = 1000 := by
    have := f32round_of_dyadic 1000 0 (by norm_num) (by norm_num); simpa using this
  have h5 : f32round (450000 : ℚ) = 450000 := by
    have := f32round_of_dyadic 450000 0 (by norm_num) (by norm_num); simpa using this
  have h6 : f32round (2 / 15 : ℚ) = 8947849 / 67108864 := by
    rw [f32round_eval (2 / 15) (-3) 8947849 (by norm_num [abs_of_pos])
      (by norm_num [abs_of_pos]) (roundHalfEven_eq_of_abs_lt _ _ (by norm_num [abs_lt]))]
    norm_num
  unfold f32div f32mul f32ofNat PULSES_PER_LITER
  norm_num [h1, h2, h3, h4, h5, h6]

theorem onePulse_increment : f32div (f32ofNat 1) PULSES_PER_LITER = 2386093 / 1073741824 := by
  have h1 : f32round (1 : ℚ) = 1 := by
    have := f32round_of_dyadic 1 0 (by norm_num) (by norm_num); simpa using this
  have h2 : f32round (1 / 450 : ℚ) = 2386093 / 1073741824 := by
    rw [f32round_eval (1 / 450) (-9) 9544372 (by norm_num [abs_of_pos])
      (by norm_num [abs_of_pos]) (roundHalfEven_eq_of_abs_lt _ _ (by norm_num [abs_lt]))]
    norm_num
  unfold f32div f32ofNat PULSES_PER_LITER
  norm_num [h1, h2]

theorem onePulse_volume :
    f32add 0 (f32div (f32ofNat 1) PULSES_PER_LITER) = 2386093 / 1073741824 := by
  rw [onePulse_increment]
  unfold f32add
  have h := f32round_of_dyadic 2386093 (-30) (by norm_num) (by norm_num)
  norm_num at h ⊢
  exact h

/-- C8 fails as stated: for `P = 1`, `W = 1000` the flow rate is the binary32 value
`8947849 / 2 ^ 26`, not `1 * 60000 / (450 * 1000)`, and the session volume goes from 0 to
the binary32 value `2386093 / 2 ^ 30`, not to `1 / 450`. -/
theorem C8_counterexample :
    1000 ≤ subU32 (wrapU32 1000) onePulseExample.lastCheck
    ∧ wrapU32 onePulseExample.pulseCount = 1
    ∧ subU32 (wrapU32 1000) onePulseExample.lastCheck = 1000
    ∧ onePulseExample.sessionVolume = 0
    ∧ (updateFlowMeasurements onePulseExample 1000).flowRate = 8947849 / 67108864
    ∧ (updateFlowMeasurements onePulseExample 1000).flowRate
        ≠ (1 : ℚ) * 60000 / (450 * 1000)
    ∧ (updateFlowMeasurements onePulseExample 1000).sessionVolume = 2386093 / 1073741824
    ∧ (updateFlowMeasurements onePulseExample 1000).sessionVolume
        ≠ onePulseExample.sessionVolume + (1 : ℚ) / 450 := by
  have hdue : 1000 ≤ subU32 (wrapU32 1000) onePulseExample.lastCheck := by decide
  have hP : wrapU32 onePulseExample.pulseCount = 1 := by decide
  have hW : subU32 (wrapU32 1000) onePulseExample.lastCheck = 1000 := by decide
  have hr : (updateFlowMeasurements onePulseExample 1000).flowRate = 8947849 / 67108864 := by
    rw [update_due _ _ hdue]
    simp only [hP, hW]
    exact onePulse_rate
  have hs0 : onePulseExample.sessionVolume = 0 := rfl
  have hv : (updateFlowMeasurements onePulseExample 1000).sessionVolume
      = 2386093 / 1073741824 := by
    rw [update_due _ _ hdue]
    simp only [hP, hs0]
    exact onePulse_volume
  refine ⟨hdue, hP, hW, hs0, hr, ?_, hv, ?_⟩
  · rw [hr]
    norm_num
  · rw [hv, hs0]
    norm_num

theorem iterate_flowPulseISR_sessionVolume (n : Nat) (st : State) :
    (flowPulseISR^[n] st).sessionVolume = st.sessionVolume := by
  induction n generalizing st with
  | zero => rfl
  | succ n ihn =>
    rw [Function.iterate_succ_apply, ihn]
    rfl

theorem runSampler_sessionVolume (calls : List SamplerCall) (st : State) :
    (runSampler st calls).sessionVolume
      = (samplerIncrements st calls).foldl f32add st.sessionVolume := by
  induction calls generalizing st with
  | nil => rfl
  | cons c cs ih =>
    simp only [runSampler, samplerIncrements]
    rw [ih]
    by_cases h : 1000 ≤ subU32 (wrapU32 c.currentTime) (flowPulseISR^[c.pulses] st).lastCheck
    · rw [if_pos h, update_due _ _ h]
      have hs := iterate_flowPulseISR_sessionVolume c.pulses st
      simp only [List.foldl_cons, hs]
    · rw [if_neg h, update_not_due _ _ (by omega)]
      have hs := iterate_flowPulseISR_sessionVolume c.pulses st
      rw [hs]

theorem fract_bounds (s : ℚ) : 0 ≤ s - ⌊s⌋ ∧ s - ⌊s⌋ < 1 := by
  have h1 := Int.floor_le s
  have h2 := Int.lt_floor_add_one s
  constructor <;> linarith

/-- C9 (amended): for every single-precision session volume `s` with `0 ≤ s < 2 ^ 32` at the
start of a due commit cycle, the liters committed are `floor s`, the session volume afterwards
is exactly `s - floor s` (at least 0, below 1, again single precision) and `totalLiters`
becomes the old value plus `floor s` modulo `2 ^ 32`; between commits the session volume after
a run of sampler calls is its starting value with the increments added one after the other
in single precision, each addition being exact whenever its exact sum is a single-precision
value. -/
theorem C9_commit_removes_integer_part (st : State) (currentTime : Nat) (now : DateTime)
    (calls : List SamplerCall) :
    (IsF32 st.sessionVolume → 0 ≤ st.sessionVolume → st.sessionVolume < 4294967296 →
      60 ≤ subU32 (wrapU32 currentTime) st.lastSave →
        f32toUnsignedLong st.sessionVolume = ⌊st.sessionVolume⌋.toNat
        ∧ (saveToEEPROM st currentTime now).sessionVolume
            = st.sessionVolume - ⌊st.sessionVolume⌋
        ∧ 0 ≤ (saveToEEPROM st currentTime now).sessionVolume
        ∧ (saveToEEPROM st currentTime now).sessionVolume < 1
        ∧ IsF32 (saveToEEPROM st currentTime now).sessionVolume
        ∧ storedTotal (saveToEEPROM st currentTime now)
            = (storedTotal st + ⌊st.sessionVolume⌋.toNat) % 4294967296)
    ∧ (runSampler st calls).sessionVolume
        = (samplerIncrements st calls).foldl f32add st.sessionVolume
    ∧ (∀ a b : ℚ, IsF32 (a + b) → f32add a b = a + b) := by
  refine ⟨?_, runSampler_sessionVolume calls st, fun a b h => f32round_of_isF32 _ h⟩
  intro hs h0 h1 hdue
  have hc := (f32toUnsignedLong_of_range _ h0 h1).1
  have hsv : (saveToEEPROM st currentTime now).sessionVolume
      = st.sessionVolume - ⌊st.sessionVolume⌋ := by
    rw [save_session st currentTime now hdue]
    exact f32_commit_remainder _ hs h0 h1
  have hb := fract_bounds st.sessionVolume
  refine ⟨hc, hsv, ?_, ?_, ?_, ?_⟩
  · rw [hsv]; exact hb.1
  · rw [hsv]; exact hb.2
  · rw [hsv]; exact (isF32_floor_fract _ hs h0).2
  · rw [storedTotal_save, if_pos hdue, hc]
    rfl

theorem rolloverExample_isF32 : IsF32 rolloverExample.sessionVolume :=
  ⟨5, -1, by norm_num, by norm_num, by norm_num, by norm_num [rolloverExample]⟩

/-- C9, witness: 2.5 liters in the session commit 2 liters and leave exactly 0.5. -/
theorem C9_witness :
    IsF32 rolloverExample.sessionVolume
    ∧ 0 ≤ rolloverExample.sessionVolume
    ∧ rolloverExample.sessionVolume < 4294967296
    ∧ 60 ≤ subU32 (wrapU32 60) rolloverExample.lastSave
    ∧ f32toUnsignedLong rolloverExample.sessionVolume = 2
    ∧ (saveToEEPROM rolloverExample 60 (clockAt 6 3)).sessionVolume = 1 / 2
    ∧ storedTotal (saveToEEPROM rolloverExample 60 (clockAt 6 3)) = 1002 := by
  have h := (C9_commit_removes_integer_part rolloverExample 60 (clockAt 6 3) []).1
    rolloverExample_isF32 (by norm_num [rolloverExample]) (by norm_num [rolloverExample])
    (by decide)
  have hf : ⌊rolloverExample.sessionVolume⌋ = 2 := by
    rw [Int.floor_eq_iff]
    norm_num [rolloverExample]
  have ht : storedTotal rolloverExample = 1000 := by decide
  rw [hf, ht] at h
  refine ⟨rolloverExample_isF32, by norm_num [rolloverExample], by norm_num [rolloverExample],
    by decide, rolloverExample_liters, ?_, ?_⟩
  · rw [h.2.1]
    norm_num [rolloverExample]
  · rw [h.2.2.2.2.2]
    decide

theorem halfLiter_sum : f32add (1 / 2) (2386093 / 1073741824) = 8425891 / 16777216 := by
  unfold f32add
  have e : (1 / 2 : ℚ) + 2386093 / 1073741824 = 539257005 / 1073741824 := by norm_num
  rw [e, f32round_eval (539257005 / 1073741824) (-1) 8425891 (by norm_num [abs_of_pos])
    (by norm_num [abs_of_pos]) (roundHalfEven_eq_of_abs_lt _ _ (by norm_num [abs_lt]))]
  norm_num

/-- C9 fails as stated: from a session volume of 0.5, one sampler call with one pulse adds
the increment `2386093 / 2 ^ 30` and leaves `8425891 / 2 ^ 24`, which is neither the starting
value plus that increment nor the starting value plus `1 / 450`; on an erased EEPROM
(`totalLiters = 2 ^ 32 - 1`) committing `floor 1.0 = 1` liter leaves `totalLiters = 0`; and a
session volume of `2 ^ 32` cannot be committed as `floor s`, which no `unsigned long` holds. -/
theorem C9_counterexample :
    halfLiterExample.sessionVolume = 1 / 2
    ∧ samplerIncrements halfLiterExample [{ pulses := 1, currentTime := 1000 }]
        = [2386093 / 1073741824]
    ∧ (runSampler halfLiterExample [{ pulses := 1, currentTime := 1000 }]).sessionVolume
        = 8425891 / 16777216
    ∧ (runSampler halfLiterExample [{ pulses := 1, currentTime := 1000 }]).sessionVolume
        ≠ halfLiterExample.sessionVolume
          + (samplerIncrements halfLiterExample [{ pulses := 1, currentTime := 1000 }]).sum
    ∧ (runSampler halfLiterExample [{ pulses := 1, currentTime := 1000 }]).sessionVolume
        ≠ halfLiterExample.sessionVolume + 1 / 450
    ∧ storedTotal erasedExample = 4294967295
    ∧ ⌊erasedExample.sessionVolume⌋.toNat = 1
    ∧ storedTotal (saveToEEPROM erasedExample 60 (clockAt 1 1)) = 0
    ∧ f32toUnsignedLong 4294967296 ≠ ⌊(4294967296 : ℚ)⌋.toNat := by
  have hdue : 1000 ≤ subU32 (wrapU32 1000) (flowPulseISR^[1] halfLiterExample).lastCheck := by
    decide
  have hP : wrapU32 (flowPulseISR^[1] halfLiterExample).pulseCount = 1 := by decide
  have hinc : samplerIncrements halfLiterExample [{ pulses := 1, currentTime := 1000 }]
      = [2386093 / 1073741824] := by
    simp only [samplerIncrements]
    rw [if_pos hdue, hP, onePulse_increment]
  have hs : halfLiterExample.sessionVolume = 1 / 2 := rfl
  have hrun : (runSampler halfLiterExample [{ pulses := 1, currentTime := 1000 }]).sessionVolume
      = 8425891 / 16777216 := by
    rw [runSampler_sessionVolume, hinc, hs]
    simp only [List.foldl_cons, List.foldl_nil]
    exact halfLiter_sum
  have htot : storedTotal (saveToEEPROM erasedExample 60 (clockAt 1 1)) = 0 := by
    have h := storedTotal_save erasedExample 60 (clockAt 1 1)
    have ht : storedTotal erasedExample = 4294967295 := by decide
    rw [if_pos (by decide), ht, erasedExample_liters] at h
    rw [h]
    decide
  have hfl : ⌊erasedExample.sessionVolume⌋.toNat = 1 := by
    have : ⌊erasedExample.sessionVolume⌋ = 1 := by
      rw [Int.floor_eq_iff]
      norm_num [erasedExample]
    rw [this]
    rfl
  have hsat : f32toUnsignedLong 4294967296 ≠ ⌊(4294967296 : ℚ)⌋.toNat := by
    have hb : f32toUnsignedLong 4294967296 ≤ 4294967295 := Nat.min_le_right _ _
    have hf : ⌊(4294967296 : ℚ)⌋ = 4294967296 := by
      rw [Int.floor_eq_iff]
      norm_num
    rw [hf]
    have : (4294967296 : ℤ).toNat = 4294967296 := rfl
    omega
  refine ⟨hs, hinc, hrun, ?_, ?_, by decide, hfl, htot, hsat⟩
  · rw [hrun, hinc, hs]
    norm_num
  · rw [hrun, hs]
    norm_num


end SmartWaterMeter
